import Mathlib

/-!
# Swerve drive: a shallow embedding of `src/main/cpp/Swerve.cpp`

The C++ type `double` is idealised: every definition is written over an arbitrary linearly
ordered field `α`, so that it can be evaluated on `ℚ` and reasoned about on `ℝ`.  Rounding,
infinities and NaN are outside the model.

Values that the source takes from `SwerveConstants.h` or from `<cmath>` (`M_PI`,
`WHEEL_SPIN_KP`, `DRIVE_LENGTH`, `DRIVE_WIDTH`, `sqrt`, `atan2`, `cos`, `sin`, ...) are
parameters of the definitions that use them.  Sensor reads (`GetAbsolutePosition`, `GetYaw`)
are parameters as well, and the values written to the motors are returned as results.
-/

namespace Swerve

variable {α : Type} [LinearOrderedField α]

/-! ## `SwerveModule` -/

/-- `SwerveModule::GetMagEncoderReading` (lines 32-44).  `absolutePosition` is the value read
from `magEncoder->GetAbsolutePosition()`. -/
def GetMagEncoderReading (M_PI absolutePosition encoderOffset : α) : α :=
  let encoderReading := absolutePosition
  let encoderReading := encoderReading - encoderOffset
  let encoderReading := if encoderReading < 0 then encoderReading + 1 else encoderReading
  let encoderReading := 1 - encoderReading
  let encoderReading := encoderReading * (2 * M_PI)
  encoderReading

/-- The two values a swerve module writes to its motors with
`Set(ControlMode::PercentOutput, _)`. -/
structure MotorOutputs (α : Type) where
  spinMotor : α
  driveMotor : α

/-- `SwerveModule::StopSwerveModule` (lines 74-78). -/
def StopSwerveModule : MotorOutputs α :=
  ⟨0, 0⟩

/-- Final values of the local variables of `SwerveModule::DriveSwerveModulePercent`, together
with the two values it writes to the motors. -/
structure ModuleCommand (α : Type) where
  wheelAngle : α
  targetAngle : α
  error : α
  spinDirection : ℤ
  driveDirection : ℤ
  spinMotor : α
  driveMotor : α

/-- The case split of `DriveSwerveModulePercent` (lines 104-108 and 119-180): the final values
of `error`, `spinDirection` and `driveDirection`.  The three variables start at `0` and keep
that value when neither `wheelAngle < targetAngle` nor `wheelAngle > targetAngle` holds. -/
def steerCase (wheelAngle targetAngle : α) : α × ℤ × ℤ :=
  if wheelAngle < targetAngle then
    if targetAngle - wheelAngle ≤ 90 then
      (targetAngle - wheelAngle, 1, 1)
    else if targetAngle - wheelAngle ≤ 180 then
      (180 - (targetAngle - wheelAngle), -1, -1)
    else if targetAngle - wheelAngle ≤ 270 then
      ((targetAngle - wheelAngle) - 180, 1, -1)
    else
      (360 - (targetAngle - wheelAngle), -1, 1)
  else if wheelAngle > targetAngle then
    if wheelAngle - targetAngle ≤ 90 then
      (wheelAngle - targetAngle, -1, 1)
    else if wheelAngle - targetAngle ≤ 180 then
      (180 - (wheelAngle - targetAngle), 1, -1)
    else if wheelAngle - targetAngle ≤ 270 then
      ((wheelAngle - targetAngle) - 180, -1, -1)
    else
      (360 - (wheelAngle - targetAngle), 1, 1)
  else
    (0, 0, 0)

/-- `SwerveModule::DriveSwerveModulePercent` from line 104 on, as a function of the value of
the local variable `wheelAngle` computed on line 102. -/
def DriveSwerveModulePercentFrom (WHEEL_SPIN_KP wheelAngle driveSpeed targetAngle : α) :
    ModuleCommand α :=
  let targetAngle := if targetAngle < 0 then targetAngle + 360 else targetAngle
  let c := steerCase wheelAngle targetAngle
  let error := c.1
  let spinDirection := c.2.1
  let driveDirection := c.2.2
  let output := WHEEL_SPIN_KP * (error / 90)
  { wheelAngle := wheelAngle
    targetAngle := targetAngle
    error := error
    spinDirection := spinDirection
    driveDirection := driveDirection
    spinMotor := output * (spinDirection : α)
    driveMotor := driveSpeed * (driveDirection : α) }

/-- `SwerveModule::DriveSwerveModulePercent` (lines 99-188): the wheel angle is the steer
heading read from the absolute encoder, converted to degrees. -/
def DriveSwerveModulePercent (M_PI WHEEL_SPIN_KP absolutePosition encoderOffset
    driveSpeed targetAngle : α) : ModuleCommand α :=
  let wheelAngle := GetMagEncoderReading M_PI absolutePosition encoderOffset * 180 / M_PI
  DriveSwerveModulePercentFrom WHEEL_SPIN_KP wheelAngle driveSpeed targetAngle

/-! ## `SwerveDrive` -/

/-- The C library function `fmod`: `x - y * trunc (x / y)`, the remainder of the division of
`x` by `y` with the quotient truncated toward zero, so the result has the sign of `x`. -/
def fmod [FloorRing α] (x y : α) : α :=
  x - y * (if 0 ≤ x / y then ((⌊x / y⌋ : ℤ) : α) else ((⌈x / y⌉ : ℤ) : α))

/-- `SwerveDrive::GetIMURadians` (lines 262-273).  `yaw` is the value read from
`pigeonIMU->GetYaw()`. -/
def GetIMURadians [FloorRing α] (M_PI yaw pigeon_initial : α) : α :=
  let pigeon_angle := fmod yaw 360
  let pigeon_angle := pigeon_angle - pigeon_initial
  let pigeon_angle := if pigeon_angle < 0 then pigeon_angle + 360 else pigeon_angle
  let pigeon_angle := 360 - pigeon_angle
  let pigeon_angle := if pigeon_angle = 360 then 0 else pigeon_angle
  let pigeon_angle := pigeon_angle * (M_PI / 180)
  pigeon_angle

/-- The four target angles and the four drive speeds that `DriveSwervePercent` holds in its
local variables. -/
structure WheelTargets (α : Type) where
  FR_Target_Angle : α
  FL_Target_Angle : α
  BL_Target_Angle : α
  BR_Target_Angle : α
  FR_Drive_Speed : α
  FL_Drive_Speed : α
  BL_Drive_Speed : α
  BR_Drive_Speed : α

/-- `SwerveDrive::DriveSwervePercent`, lines 333-348: the raw wheel targets. -/
def rawWheelTargets (sqrt : α → α) (atan2 : α → α → α)
    (M_PI DRIVE_LENGTH DRIVE_WIDTH FWD_Drive_Speed STRAFE_Drive_Speed Turn_Speed : α) :
    WheelTargets α :=
  let driveRadius := sqrt (DRIVE_LENGTH ^ 2 + DRIVE_WIDTH ^ 2)
  let A := STRAFE_Drive_Speed - Turn_Speed * (DRIVE_LENGTH / driveRadius)
  let B := STRAFE_Drive_Speed + Turn_Speed * (DRIVE_LENGTH / driveRadius)
  let C := FWD_Drive_Speed - Turn_Speed * (DRIVE_WIDTH / driveRadius)
  let D := FWD_Drive_Speed + Turn_Speed * (DRIVE_WIDTH / driveRadius)
  { FR_Target_Angle := atan2 B C * 180 / M_PI
    FL_Target_Angle := atan2 B D * 180 / M_PI
    BL_Target_Angle := atan2 A D * 180 / M_PI
    BR_Target_Angle := atan2 A C * 180 / M_PI
    FR_Drive_Speed := sqrt (B ^ 2 + C ^ 2)
    FL_Drive_Speed := sqrt (B ^ 2 + D ^ 2)
    BL_Drive_Speed := sqrt (A ^ 2 + D ^ 2)
    BR_Drive_Speed := sqrt (A ^ 2 + C ^ 2) }

/-- `SwerveDrive::DriveSwervePercent`, lines 354-360: the final value of the local variable
`max`. -/
def maxDriveSpeed (w : WheelTargets α) : α :=
  let max := w.FR_Drive_Speed
  let max := if w.FL_Drive_Speed > max then w.FL_Drive_Speed else max
  let max := if w.BL_Drive_Speed > max then w.BL_Drive_Speed else max
  let max := if w.BR_Drive_Speed > max then w.BR_Drive_Speed else max
  max

/-- `SwerveDrive::DriveSwervePercent`, lines 362-368: the drive speeds after the scaling
step. -/
def scaleDriveSpeeds (w : WheelTargets α) : WheelTargets α :=
  let max := maxDriveSpeed w
  if max > 1 then
    { w with
      FL_Drive_Speed := w.FL_Drive_Speed / max
      FR_Drive_Speed := w.FR_Drive_Speed / max
      BL_Drive_Speed := w.BL_Drive_Speed / max
      BR_Drive_Speed := w.BR_Drive_Speed / max }
  else
    w

/-- The method that `DriveSwervePercent` calls on a module, with its arguments. -/
inductive ModuleCall (α : Type) where
  | StopSwerveModule : ModuleCall α
  | DriveSwerveModulePercent (driveSpeed targetAngle : α) : ModuleCall α

/-- The calls that `DriveSwervePercent` makes on the four modules. -/
structure DriveCalls (α : Type) where
  FLModule : ModuleCall α
  FRModule : ModuleCall α
  BLModule : ModuleCall α
  BRModule : ModuleCall α

/-- `SwerveDrive::DriveSwervePercent` (lines 316-378) up to the calls on the modules. -/
def DriveSwervePercentCalls (sqrt : α → α) (atan2 : α → α → α)
    (M_PI DRIVE_LENGTH DRIVE_WIDTH FWD_Drive_Speed STRAFE_Drive_Speed Turn_Speed : α) :
    DriveCalls α :=
  if FWD_Drive_Speed = 0 ∧ STRAFE_Drive_Speed = 0 ∧ Turn_Speed = 0 then
    { FLModule := ModuleCall.StopSwerveModule
      FRModule := ModuleCall.StopSwerveModule
      BLModule := ModuleCall.StopSwerveModule
      BRModule := ModuleCall.StopSwerveModule }
  else
    let w := scaleDriveSpeeds (rawWheelTargets sqrt atan2 M_PI DRIVE_LENGTH DRIVE_WIDTH
      FWD_Drive_Speed STRAFE_Drive_Speed Turn_Speed)
    { FLModule := ModuleCall.DriveSwerveModulePercent w.FL_Drive_Speed w.FL_Target_Angle
      FRModule := ModuleCall.DriveSwerveModulePercent w.FR_Drive_Speed w.FR_Target_Angle
      BLModule := ModuleCall.DriveSwerveModulePercent w.BL_Drive_Speed w.BL_Target_Angle
      BRModule := ModuleCall.DriveSwerveModulePercent w.BR_Drive_Speed w.BR_Target_Angle }

/-- The sensor state of one module: the reading of its absolute encoder and its calibrated
`encoderOffset`. -/
structure ModuleSensor (α : Type) where
  absolutePosition : α
  encoderOffset : α

/-- The motor outputs a module produces for a call. -/
def ModuleCall.outputs (M_PI WHEEL_SPIN_KP : α) (m : ModuleSensor α) :
    ModuleCall α → MotorOutputs α
  | ModuleCall.StopSwerveModule => Swerve.StopSwerveModule
  | ModuleCall.DriveSwerveModulePercent driveSpeed targetAngle =>
    { spinMotor := (Swerve.DriveSwerveModulePercent M_PI WHEEL_SPIN_KP m.absolutePosition
        m.encoderOffset driveSpeed targetAngle).spinMotor
      driveMotor := (Swerve.DriveSwerveModulePercent M_PI WHEEL_SPIN_KP m.absolutePosition
        m.encoderOffset driveSpeed targetAngle).driveMotor }

/-- The motor outputs of the four modules. -/
structure DriveOutputs (α : Type) where
  FLModule : MotorOutputs α
  FRModule : MotorOutputs α
  BLModule : MotorOutputs α
  BRModule : MotorOutputs α

/-- `SwerveDrive::DriveSwervePercent` (lines 316-378): the motor outputs of the four modules. -/
def DriveSwervePercent (sqrt : α → α) (atan2 : α → α → α)
    (M_PI WHEEL_SPIN_KP DRIVE_LENGTH DRIVE_WIDTH : α) (FL FR BL BR : ModuleSensor α)
    (FWD_Drive_Speed STRAFE_Drive_Speed Turn_Speed : α) : DriveOutputs α :=
  let calls := DriveSwervePercentCalls sqrt atan2 M_PI DRIVE_LENGTH DRIVE_WIDTH
    FWD_Drive_Speed STRAFE_Drive_Speed Turn_Speed
  { FLModule := calls.FLModule.outputs M_PI WHEEL_SPIN_KP FL
    FRModule := calls.FRModule.outputs M_PI WHEEL_SPIN_KP FR
    BLModule := calls.BLModule.outputs M_PI WHEEL_SPIN_KP BL
    BRModule := calls.BRModule.outputs M_PI WHEEL_SPIN_KP BR }

/-- `SwerveDrive::DriveSwerveMetersAndRadiansFieldOriented`, lines 386-387: the values of
`FWD_Drive_Speed` and `STRAFE_Drive_Speed` after the two assignments.  The second assignment
reads `FWD_Drive_Speed` after the first one has written it. -/
def fieldOrientedSpeeds (cos sin : α → α) (pigeon_angle FWD_Drive_Speed STRAFE_Drive_Speed : α) :
    α × α :=
  let FWD_Drive_Speed := FWD_Drive_Speed * cos pigeon_angle + STRAFE_Drive_Speed * sin pigeon_angle
  let STRAFE_Drive_Speed :=
    -1 * FWD_Drive_Speed * sin pigeon_angle + STRAFE_Drive_Speed * cos pigeon_angle
  (FWD_Drive_Speed, STRAFE_Drive_Speed)

/-- `SwerveDrive::DriveSwerveMetersAndRadiansFieldOriented` (lines 380-389): the three
arguments of its call of `DriveSwervePercent`. -/
def DriveSwerveMetersAndRadiansFieldOrientedArgs [FloorRing α] (cos sin : α → α)
    (M_PI SWERVE_DRIVE_MAX_MPS MAX_RADIAN_PER_SECOND yaw pigeon_initial
      FWD_Drive_Speed STRAFE_Drive_Speed Turn_Speed : α) : α × α × α :=
  let pigeon_angle := GetIMURadians M_PI yaw pigeon_initial
  let v := fieldOrientedSpeeds cos sin pigeon_angle FWD_Drive_Speed STRAFE_Drive_Speed
  (v.1 / SWERVE_DRIVE_MAX_MPS, v.2 / SWERVE_DRIVE_MAX_MPS, Turn_Speed / MAX_RADIAN_PER_SECOND)

/-- The four drive speeds of `w`, in the order FL, FR, BL, BR of the calls on the modules. -/
def WheelTargets.speed (w : WheelTargets α) : Fin 4 → α :=
  ![w.FL_Drive_Speed, w.FR_Drive_Speed, w.BL_Drive_Speed, w.BR_Drive_Speed]

/-! ## `SwerveModule`: encoder zero references and reports -/

/-- The `double` instance variables of a `SwerveModule` (lines 13-16). -/
structure SwerveModule (α : Type) where
  encoderOffset : α
  driveEncoderInitial : α
  spinEncoderInitialHeading : α
  spinEncoderInitialValue : α

/-- The values read from the devices of one module: `driveMotor->GetSelectedSensorPosition()`,
`driveMotor->GetSelectedSensorVelocity()`, `spinMotor->GetSelectedSensorPosition()` and
`magEncoder->GetAbsolutePosition()`. -/
structure ModuleReadings (α : Type) where
  drivePosition : α
  driveVelocity : α
  spinPosition : α
  absolutePosition : α

/-- `SwerveModule::ResetEncoders` (lines 46-51). -/
def ResetEncoders (M_PI : α) (m : SwerveModule α) (r : ModuleReadings α) : SwerveModule α :=
  { m with
    driveEncoderInitial := r.drivePosition
    spinEncoderInitialHeading := GetMagEncoderReading M_PI r.absolutePosition m.encoderOffset
    spinEncoderInitialValue := -1 * r.spinPosition }

/-- `SwerveModule::GetDriveEncoderMeters` (lines 54-57). -/
def GetDriveEncoderMeters ( DRIVE_MOTOR_GEAR_RATIO DRIVE_MOTOR_CIRCUMFERENCE : α)
    (m : SwerveModule α) (r : ModuleReadings α) : α :=
  (r.drivePosition - m.driveEncoderInitial) / 2048 / DRIVE_MOTOR_GEAR_RATIO *
    DRIVE_MOTOR_CIRCUMFERENCE

/-- `SwerveModule::GetDriveVelocity` (lines 60-63). -/
def GetDriveVelocity (M_PI : α) (r : ModuleReadings α) : α :=
  r.driveVelocity / 2048 / 6.54 * 0.10322 * M_PI * 10

/-- `SwerveModule::GetSpinEncoderRadians` (lines 66-71). -/
def GetSpinEncoderRadians [FloorRing α] (M_PI SPIN_MOTOR_GEAR_RATIO : α)
    (m : SwerveModule α) (r : ModuleReadings α) : α :=
  let rotation :=
    ((-1 * r.spinPosition - m.spinEncoderInitialValue) / 2048 / SPIN_MOTOR_GEAR_RATIO * 2 * M_PI)
      - m.spinEncoderInitialHeading
  fmod rotation (2 * M_PI)

/-- The fields of `SwerveModuleState` that `GetSwerveModuleState` sets: the speed in meters per
second and the number of radians given to `Rotation2d`. -/
structure SwerveModuleState (α : Type) where
  speed : α
  angle : α

/-- The fields of `SwerveModulePosition` that `GetSwerveModulePosition` sets: the distance in
centimeters and the number of radians given to `Rotation2d`. -/
structure SwerveModulePosition (α : Type) where
  distance : α
  angle : α

/-- `SwerveModule::GetSwerveModuleState` (lines 81-87). -/
def GetSwerveModuleState (M_PI : α) (m : SwerveModule α) (r : ModuleReadings α) :
    SwerveModuleState α :=
  { speed := |GetDriveVelocity M_PI r|
    angle := GetMagEncoderReading M_PI r.absolutePosition m.encoderOffset / 180 * M_PI }

/-- `SwerveModule::GetSwerveModulePosition` (lines 90-96). -/
def GetSwerveModulePosition (M_PI DRIVE_MOTOR_GEAR_RATIO DRIVE_MOTOR_CIRCUMFERENCE : α)
    (m : SwerveModule α) (r : ModuleReadings α) : SwerveModulePosition α :=
  { distance := GetDriveEncoderMeters DRIVE_MOTOR_GEAR_RATIO DRIVE_MOTOR_CIRCUMFERENCE m r * 100
    angle := GetMagEncoderReading M_PI r.absolutePosition m.encoderOffset }

/-! ## Theorems -/

/-- C1: for every wheel angle and target angle in [0,360) degrees, the steering error that
`DriveSwerveModulePercent` computes lies in [0, 90]. -/
theorem steer_error_within_quarter_turn (WHEEL_SPIN_KP wheelAngle driveSpeed targetAngle : α)
    (hw : 0 ≤ wheelAngle ∧ wheelAngle < 360) (ht : 0 ≤ targetAngle ∧ targetAngle < 360) :
    0 ≤ (DriveSwerveModulePercentFrom WHEEL_SPIN_KP wheelAngle driveSpeed targetAngle).error ∧
      (DriveSwerveModulePercentFrom WHEEL_SPIN_KP wheelAngle driveSpeed targetAngle).error
        ≤ 90 := by
  obtain ⟨hw0, hw1⟩ := hw
  obtain ⟨ht0, ht1⟩ := ht
  have hneg : ¬ targetAngle < 0 := not_lt.mpr ht0
  simp only [DriveSwerveModulePercentFrom, if_neg hneg, steerCase]
  split_ifs <;> constructor <;> simp only [] <;> linarith

/-- Witness for C1: wheel at 170 degrees, target at 10 degrees. -/
theorem steer_error_within_quarter_turn_witness :
    ((0 : ℚ) ≤ 170 ∧ (170 : ℚ) < 360) ∧ ((0 : ℚ) ≤ 10 ∧ (10 : ℚ) < 360) ∧
      0 ≤ (DriveSwerveModulePercentFrom (1 : ℚ) 170 1 10).error ∧
      (DriveSwerveModulePercentFrom (1 : ℚ) 170 1 10).error ≤ 90 :=
  ⟨by norm_num, by norm_num,
    steer_error_within_quarter_turn (1 : ℚ) 170 1 10 (by norm_num) (by norm_num)⟩

/-- C2: for distinct wheel and target angles in [0,360), `DriveSwerveModulePercent` either
drives forward and steers onto the target, or drives in reverse and steers onto the opposite
of the target: `wheelAngle + spinDirection * error` is the target (respectively the target
plus 180) up to a multiple of 360.  At wheel 170 and target 10 it gives error 20, spin
direction +1 and drive direction -1. -/
theorem steer_reaches_target_or_opposite (WHEEL_SPIN_KP wheelAngle driveSpeed targetAngle : α)
    (hw : 0 ≤ wheelAngle ∧ wheelAngle < 360) (ht : 0 ≤ targetAngle ∧ targetAngle < 360)
    (hne : wheelAngle ≠ targetAngle) :
    (((DriveSwerveModulePercentFrom WHEEL_SPIN_KP wheelAngle driveSpeed
            targetAngle).driveDirection = 1 ∧
        ∃ k : ℤ, wheelAngle +
          ((DriveSwerveModulePercentFrom WHEEL_SPIN_KP wheelAngle driveSpeed
              targetAngle).spinDirection : α) *
            (DriveSwerveModulePercentFrom WHEEL_SPIN_KP wheelAngle driveSpeed targetAngle).error
          = targetAngle + 360 * (k : α)) ∨
      ((DriveSwerveModulePercentFrom WHEEL_SPIN_KP wheelAngle driveSpeed
            targetAngle).driveDirection = -1 ∧
        ∃ k : ℤ, wheelAngle +
          ((DriveSwerveModulePercentFrom WHEEL_SPIN_KP wheelAngle driveSpeed
              targetAngle).spinDirection : α) *
            (DriveSwerveModulePercentFrom WHEEL_SPIN_KP wheelAngle driveSpeed targetAngle).error
          = targetAngle + 180 + 360 * (k : α))) ∧
    ((DriveSwerveModulePercentFrom WHEEL_SPIN_KP 170 driveSpeed 10).error = 20 ∧
      (DriveSwerveModulePercentFrom WHEEL_SPIN_KP 170 driveSpeed 10).spinDirection = 1 ∧
      (DriveSwerveModulePercentFrom WHEEL_SPIN_KP 170 driveSpeed 10).driveDirection = -1) := by
  obtain ⟨hw0, hw1⟩ := hw
  obtain ⟨ht0, ht1⟩ := ht
  have hneg : ¬ targetAngle < 0 := not_lt.mpr ht0
  refine ⟨?_, ?_⟩
  · simp only [DriveSwerveModulePercentFrom, if_neg hneg, steerCase]
    split_ifs with h1 h2 h3 h4 h5 h6 h7 h8
    · exact Or.inl ⟨rfl, 0, by push_cast; ring⟩
    · exact Or.inr ⟨rfl, -1, by push_cast; ring⟩
    · exact Or.inr ⟨rfl, -1, by push_cast; ring⟩
    · exact Or.inl ⟨rfl, -1, by push_cast; ring⟩
    · exact Or.inl ⟨rfl, 0, by push_cast; ring⟩
    · exact Or.inr ⟨rfl, 0, by push_cast; ring⟩
    · exact Or.inr ⟨rfl, 0, by push_cast; ring⟩
    · exact Or.inl ⟨rfl, 1, by push_cast; ring⟩
    · exact absurd (le_antisymm (not_lt.mp h5) (not_lt.mp h1)) hne
  · norm_num [DriveSwerveModulePercentFrom, steerCase]

/-- Witness for C2: wheel at 200 degrees, target at 350 degrees (steers back by 30 degrees
onto 170 degrees, the opposite of the target, with the drive reversed). -/
theorem steer_reaches_target_or_opposite_witness :
    ((0 : ℚ) ≤ 200 ∧ (200 : ℚ) < 360) ∧ ((0 : ℚ) ≤ 350 ∧ (350 : ℚ) < 360) ∧
    (200 : ℚ) ≠ 350 ∧
    (DriveSwerveModulePercentFrom (1 : ℚ) 200 1 350).error = 30 ∧
    (DriveSwerveModulePercentFrom (1 : ℚ) 200 1 350).spinDirection = -1 ∧
    (DriveSwerveModulePercentFrom (1 : ℚ) 200 1 350).driveDirection = -1 ∧
    (((DriveSwerveModulePercentFrom (1 : ℚ) 200 1 350).driveDirection = 1 ∧
        ∃ k : ℤ, (200 : ℚ) +
          ((DriveSwerveModulePercentFrom (1 : ℚ) 200 1 350).spinDirection : ℚ) *
            (DriveSwerveModulePercentFrom (1 : ℚ) 200 1 350).error
          = 350 + 360 * (k : ℚ)) ∨
      ((DriveSwerveModulePercentFrom (1 : ℚ) 200 1 350).driveDirection = -1 ∧
        ∃ k : ℤ, (200 : ℚ) +
          ((DriveSwerveModulePercentFrom (1 : ℚ) 200 1 350).spinDirection : ℚ) *
            (DriveSwerveModulePercentFrom (1 : ℚ) 200 1 350).error
          = 350 + 180 + 360 * (k : ℚ))) :=
  ⟨by norm_num, by norm_num, by norm_num,
    by norm_num [DriveSwerveModulePercentFrom, steerCase],
    by norm_num [DriveSwerveModulePercentFrom, steerCase],
    by norm_num [DriveSwerveModulePercentFrom, steerCase],
    (steer_reaches_target_or_opposite (1 : ℚ) 200 1 350 (by norm_num) (by norm_num)
      (by norm_num)).1⟩

/-- C3: the code at a wheel that is already on its target.  With the absolute encoder at
3/4 of a turn and offset 0 the wheel angle is 90 degrees; for the target angle 90 neither
`wheelAngle < targetAngle` nor `wheelAngle > targetAngle` holds, so `driveDirection` keeps its
initial value 0 and the drive output is 0 for every desired speed (the steer output is 0 as
well).  The same happens for the wheel angle 0 and the target angle 0. -/
theorem drive_direction_zero_on_target (WHEEL_SPIN_KP driveSpeed : ℝ) :
    ((DriveSwerveModulePercent Real.pi WHEEL_SPIN_KP (3 / 4) 0 driveSpeed 90).wheelAngle = 90 ∧
      (DriveSwerveModulePercent Real.pi WHEEL_SPIN_KP (3 / 4) 0 driveSpeed 90).targetAngle = 90 ∧
      (DriveSwerveModulePercent Real.pi WHEEL_SPIN_KP (3 / 4) 0 driveSpeed 90).driveDirection = 0 ∧
      (DriveSwerveModulePercent Real.pi WHEEL_SPIN_KP (3 / 4) 0 driveSpeed 90).driveMotor = 0 ∧
      (DriveSwerveModulePercent Real.pi WHEEL_SPIN_KP (3 / 4) 0 driveSpeed 90).spinMotor = 0) ∧
    ((DriveSwerveModulePercentFrom WHEEL_SPIN_KP 0 driveSpeed 0).driveDirection = 0 ∧
      (DriveSwerveModulePercentFrom WHEEL_SPIN_KP 0 driveSpeed 0).driveMotor = 0 ∧
      (DriveSwerveModulePercentFrom WHEEL_SPIN_KP 0 driveSpeed 0).spinMotor = 0) := by
  have hpi : Real.pi ≠ 0 := Real.pi_ne_zero
  have hwheel : GetMagEncoderReading Real.pi (3 / 4) 0 * 180 / Real.pi = 90 := by
    have h : ¬ ((3 : ℝ) / 4 - 0 < 0) := by norm_num
    simp only [GetMagEncoderReading, if_neg h]
    field_simp
    ring
  refine ⟨?_, ?_⟩
  · simp only [DriveSwerveModulePercent, hwheel]
    norm_num [DriveSwerveModulePercentFrom, steerCase]
  · norm_num [DriveSwerveModulePercentFrom, steerCase]

/-- The sequence of comparisons on lines 354-360 computes the maximum of the four speeds. -/
lemma maxDriveSpeed_eq_max (w : WheelTargets α) :
    maxDriveSpeed w =
      max (max (max w.FR_Drive_Speed w.FL_Drive_Speed) w.BL_Drive_Speed) w.BR_Drive_Speed := by
  simp only [maxDriveSpeed, gt_iff_lt]
  rw [max_def, max_def, max_def]
  split_ifs <;> first | rfl | (exfalso; linarith) | (apply le_antisymm <;> linarith)

/-- Every drive speed is at most the value of `max`. -/
lemma speed_le_maxDriveSpeed (w : WheelTargets α) (i : Fin 4) : w.speed i ≤ maxDriveSpeed w := by
  rw [maxDriveSpeed_eq_max]
  fin_cases i <;> simp [WheelTargets.speed]

/-- When `max` exceeds 1, the scaling step divides each speed by `max`. -/
lemma scaleDriveSpeeds_speed (w : WheelTargets α) (h : 1 < maxDriveSpeed w) (i : Fin 4) :
    (scaleDriveSpeeds w).speed i = w.speed i / maxDriveSpeed w := by
  have h1 : maxDriveSpeed w > 1 := h
  simp only [scaleDriveSpeeds, if_pos h1]
  fin_cases i <;> simp [WheelTargets.speed]

/-- When `max` exceeds 1, the largest speed after the scaling step is 1. -/
lemma maxDriveSpeed_scaleDriveSpeeds (w : WheelTargets α) (h : 1 < maxDriveSpeed w) :
    maxDriveSpeed (scaleDriveSpeeds w) = 1 := by
  have h1 : maxDriveSpeed w > 1 := h
  have hpos : 0 < maxDriveSpeed w := lt_trans zero_lt_one h
  have hnn : 0 ≤ maxDriveSpeed w := le_of_lt hpos
  rw [maxDriveSpeed_eq_max (scaleDriveSpeeds w)]
  simp only [scaleDriveSpeeds, if_pos h1]
  rw [max_div_div_right hnn, max_div_div_right hnn, max_div_div_right hnn,
    ← maxDriveSpeed_eq_max w]
  exact div_self (ne_of_gt hpos)

/-- The raw wheel targets for half-length 3, half-width 4 and the command
(forward, strafe, rotation) = (4/5, 3/5, 1): the raw speeds are 6/5 (FR), 2 (FL), 8/5 (BL) and
0 (BR). -/
lemma rawWheelTargets_unequal_speeds (atan2 : ℝ → ℝ → ℝ) (M_PI : ℝ) :
    (rawWheelTargets Real.sqrt atan2 M_PI 3 4 (4 / 5) (3 / 5) 1).FR_Drive_Speed = 6 / 5 ∧
    (rawWheelTargets Real.sqrt atan2 M_PI 3 4 (4 / 5) (3 / 5) 1).FL_Drive_Speed = 2 ∧
    (rawWheelTargets Real.sqrt atan2 M_PI 3 4 (4 / 5) (3 / 5) 1).BL_Drive_Speed = 8 / 5 ∧
    (rawWheelTargets Real.sqrt atan2 M_PI 3 4 (4 / 5) (3 / 5) 1).BR_Drive_Speed = 0 := by
  have hR : Real.sqrt (3 ^ 2 + 4 ^ 2) = 5 := by
    rw [show (3 : ℝ) ^ 2 + 4 ^ 2 = 5 ^ 2 by norm_num]
    exact Real.sqrt_sq (by norm_num)
  have hA : (3 / 5 : ℝ) - 1 * (3 / 5) = 0 := by norm_num
  have hB : (3 / 5 : ℝ) + 1 * (3 / 5) = 6 / 5 := by norm_num
  have hC : (4 / 5 : ℝ) - 1 * (4 / 5) = 0 := by norm_num
  have hD : (4 / 5 : ℝ) + 1 * (4 / 5) = 8 / 5 := by norm_num
  have hFR : Real.sqrt ((6 / 5) ^ 2 + 0 ^ 2) = 6 / 5 := by
    rw [show ((6 : ℝ) / 5) ^ 2 + 0 ^ 2 = (6 / 5) ^ 2 by norm_num]
    exact Real.sqrt_sq (by norm_num)
  have hFL : Real.sqrt ((6 / 5) ^ 2 + (8 / 5) ^ 2) = 2 := by
    rw [show ((6 : ℝ) / 5) ^ 2 + (8 / 5) ^ 2 = 2 ^ 2 by norm_num]
    exact Real.sqrt_sq (by norm_num)
  have hBL : Real.sqrt (0 ^ 2 + (8 / 5) ^ 2) = 8 / 5 := by
    rw [show (0 : ℝ) ^ 2 + (8 / 5) ^ 2 = (8 / 5) ^ 2 by norm_num]
    exact Real.sqrt_sq (by norm_num)
  have hBR : Real.sqrt ((0 : ℝ) ^ 2 + 0 ^ 2) = 0 := by
    rw [show (0 : ℝ) ^ 2 + 0 ^ 2 = 0 by norm_num]
    exact Real.sqrt_zero
  simp only [rawWheelTargets, hR, hA, hB, hC, hD, hFR, hFL, hBL, hBR, and_self]

/-- C4: for a non-degenerate geometry and a command for which the largest of the four raw wheel
speeds, `M = max (max (max FR FL) BL) BR`, exceeds 1, `DriveSwervePercent` calls each module
with its raw speed divided by `M` (and its raw target angle); the largest of the four speeds
passed on is exactly 1, and every ratio of two of them is the ratio of the raw speeds. -/
theorem scaled_speeds_are_raw_over_max (atan2 : ℝ → ℝ → ℝ)
    (M_PI DRIVE_LENGTH DRIVE_WIDTH FWD STRAFE Turn : ℝ) (raw : WheelTargets ℝ) (M : ℝ)
    (_hgeo : ¬ (DRIVE_LENGTH = 0 ∧ DRIVE_WIDTH = 0))
    (hraw : raw = rawWheelTargets Real.sqrt atan2 M_PI DRIVE_LENGTH DRIVE_WIDTH FWD STRAFE Turn)
    (hM : M = max (max (max raw.FR_Drive_Speed raw.FL_Drive_Speed) raw.BL_Drive_Speed)
      raw.BR_Drive_Speed)
    (hmax : 1 < M) :
    DriveSwervePercentCalls Real.sqrt atan2 M_PI DRIVE_LENGTH DRIVE_WIDTH FWD STRAFE Turn =
      DriveCalls.mk
        (ModuleCall.DriveSwerveModulePercent (raw.FL_Drive_Speed / M) raw.FL_Target_Angle)
        (ModuleCall.DriveSwerveModulePercent (raw.FR_Drive_Speed / M) raw.FR_Target_Angle)
        (ModuleCall.DriveSwerveModulePercent (raw.BL_Drive_Speed / M) raw.BL_Target_Angle)
        (ModuleCall.DriveSwerveModulePercent (raw.BR_Drive_Speed / M) raw.BR_Target_Angle) ∧
    max (max (max (raw.FR_Drive_Speed / M) (raw.FL_Drive_Speed / M)) (raw.BL_Drive_Speed / M))
      (raw.BR_Drive_Speed / M) = 1 ∧
    ∀ x ∈ [raw.FL_Drive_Speed, raw.FR_Drive_Speed, raw.BL_Drive_Speed, raw.BR_Drive_Speed],
      ∀ y ∈ [raw.FL_Drive_Speed, raw.FR_Drive_Speed, raw.BL_Drive_Speed, raw.BR_Drive_Speed],
        x / M ≤ 1 ∧ (x / M) / (y / M) = x / y := by
  have hmd : maxDriveSpeed raw = M := by
    rw [hM]
    exact maxDriveSpeed_eq_max raw
  have hpos : 0 < M := lt_trans zero_lt_one hmax
  have hcmd : ¬ (FWD = 0 ∧ STRAFE = 0 ∧ Turn = 0) := by
    rintro ⟨rfl, rfl, rfl⟩
    rw [hM, hraw] at hmax
    norm_num [rawWheelTargets] at hmax
  refine ⟨?_, ?_, ?_⟩
  · unfold DriveSwervePercentCalls
    rw [if_neg hcmd, ← hraw]
    have hgtM : M > 1 := hmax
    simp only [scaleDriveSpeeds, hmd, if_pos hgtM]
  · rw [max_div_div_right hpos.le, max_div_div_right hpos.le, max_div_div_right hpos.le, ← hM]
    exact div_self (ne_of_gt hpos)
  · intro x hx y _
    refine ⟨?_, div_div_div_cancel_right₀ (ne_of_gt hpos) x y⟩
    rw [div_le_one hpos, hM]
    simp only [List.mem_cons, List.mem_singleton, List.not_mem_nil, or_false] at hx
    rcases hx with rfl | rfl | rfl | rfl <;> simp

/-- Witness for C4: half-length 3, half-width 4 and the command (forward, strafe, rotation) =
(4/5, 3/5, 1).  The raw speeds are 6/5 (FR), 2 (FL), 8/5 (BL) and 0 (BR); their maximum is 2,
and the modules are called with the speeds 1 (FL), 3/5 (FR), 4/5 (BL) and 0 (BR). -/
theorem scaled_speeds_are_raw_over_max_witness :
    ¬ ((3 : ℝ) = 0 ∧ (4 : ℝ) = 0) ∧
    (1 : ℝ) < max (max (max (6 / 5) 2) (8 / 5)) 0 ∧
    ((rawWheelTargets Real.sqrt (fun y x => Complex.arg ⟨x, y⟩) Real.pi 3 4
          (4 / 5) (3 / 5) 1).FR_Drive_Speed = 6 / 5 ∧
      (rawWheelTargets Real.sqrt (fun y x => Complex.arg ⟨x, y⟩) Real.pi 3 4
          (4 / 5) (3 / 5) 1).FL_Drive_Speed = 2 ∧
      (rawWheelTargets Real.sqrt (fun y x => Complex.arg ⟨x, y⟩) Real.pi 3 4
          (4 / 5) (3 / 5) 1).BL_Drive_Speed = 8 / 5 ∧
      (rawWheelTargets Real.sqrt (fun y x => Complex.arg ⟨x, y⟩) Real.pi 3 4
          (4 / 5) (3 / 5) 1).BR_Drive_Speed = 0) ∧
    DriveSwervePercentCalls Real.sqrt (fun y x => Complex.arg ⟨x, y⟩) Real.pi 3 4
        (4 / 5) (3 / 5) 1 =
      DriveCalls.mk
        (ModuleCall.DriveSwerveModulePercent 1
          (rawWheelTargets Real.sqrt (fun y x => Complex.arg ⟨x, y⟩) Real.pi 3 4
            (4 / 5) (3 / 5) 1).FL_Target_Angle)
        (ModuleCall.DriveSwerveModulePercent (3 / 5)
          (rawWheelTargets Real.sqrt (fun y x => Complex.arg ⟨x, y⟩) Real.pi 3 4
            (4 / 5) (3 / 5) 1).FR_Target_Angle)
        (ModuleCall.DriveSwerveModulePercent (4 / 5)
          (rawWheelTargets Real.sqrt (fun y x => Complex.arg ⟨x, y⟩) Real.pi 3 4
            (4 / 5) (3 / 5) 1).BL_Target_Angle)
        (ModuleCall.DriveSwerveModulePercent 0
          (rawWheelTargets Real.sqrt (fun y x => Complex.arg ⟨x, y⟩) Real.pi 3 4
            (4 / 5) (3 / 5) 1).BR_Target_Angle) := by
  obtain ⟨hFR, hFL, hBL, hBR⟩ :=
    rawWheelTargets_unequal_speeds (fun y x => Complex.arg ⟨x, y⟩) Real.pi
  have hmaxval : max (max (max ((6 : ℝ) / 5) 2) (8 / 5)) 0 = 2 := by norm_num
  have hM : (2 : ℝ) = max (max (max
      (rawWheelTargets Real.sqrt (fun y x => Complex.arg ⟨x, y⟩) Real.pi 3 4
        (4 / 5) (3 / 5) 1).FR_Drive_Speed
      (rawWheelTargets Real.sqrt (fun y x => Complex.arg ⟨x, y⟩) Real.pi 3 4
        (4 / 5) (3 / 5) 1).FL_Drive_Speed)
      (rawWheelTargets Real.sqrt (fun y x => Complex.arg ⟨x, y⟩) Real.pi 3 4
        (4 / 5) (3 / 5) 1).BL_Drive_Speed)
      (rawWheelTargets Real.sqrt (fun y x => Complex.arg ⟨x, y⟩) Real.pi 3 4
        (4 / 5) (3 / 5) 1).BR_Drive_Speed := by
    rw [hFR, hFL, hBL, hBR, hmaxval]
  have h := (scaled_speeds_are_raw_over_max (fun y x => Complex.arg ⟨x, y⟩) Real.pi 3 4
    (4 / 5) (3 / 5) 1
    (rawWheelTargets Real.sqrt (fun y x => Complex.arg ⟨x, y⟩) Real.pi 3 4 (4 / 5) (3 / 5) 1)
    2 (by norm_num) rfl hM (by norm_num)).1
  rw [hFR, hFL, hBL, hBR] at h
  refine ⟨by norm_num, by rw [hmaxval]; norm_num, ⟨hFR, hFL, hBL, hBR⟩, ?_⟩
  rw [h]
  norm_num

/-- C5: when forward, strafe and rotation are all exactly 0, `DriveSwervePercent` calls
`StopSwerveModule` on all four modules and never `DriveSwerveModulePercent`, so the steer
output and the drive output of FL, FR, BL and BR are 0 for every sensor state of the four
modules (and whatever the constants and the library functions are). -/
theorem zero_command_stops_all_modules (sqrt : α → α) (atan2 : α → α → α)
    (M_PI WHEEL_SPIN_KP DRIVE_LENGTH DRIVE_WIDTH : α) (FL FR BL BR : ModuleSensor α) :
    DriveSwervePercentCalls sqrt atan2 M_PI DRIVE_LENGTH DRIVE_WIDTH 0 0 0 =
      DriveCalls.mk ModuleCall.StopSwerveModule ModuleCall.StopSwerveModule
        ModuleCall.StopSwerveModule ModuleCall.StopSwerveModule ∧
    DriveSwervePercent sqrt atan2 M_PI WHEEL_SPIN_KP DRIVE_LENGTH DRIVE_WIDTH FL FR BL BR 0 0 0 =
      DriveOutputs.mk (MotorOutputs.mk 0 0) (MotorOutputs.mk 0 0) (MotorOutputs.mk 0 0)
        (MotorOutputs.mk 0 0) := by
  have h : (0 : α) = 0 ∧ (0 : α) = 0 ∧ (0 : α) = 0 := ⟨rfl, rfl, rfl⟩
  have hcalls : DriveSwervePercentCalls sqrt atan2 M_PI DRIVE_LENGTH DRIVE_WIDTH 0 0 0 =
      DriveCalls.mk ModuleCall.StopSwerveModule ModuleCall.StopSwerveModule
        ModuleCall.StopSwerveModule ModuleCall.StopSwerveModule := by
    unfold DriveSwervePercentCalls
    exact if_pos h
  refine ⟨hcalls, ?_⟩
  simp only [DriveSwervePercent, hcalls, ModuleCall.outputs, StopSwerveModule]

/-- For a reading and an offset in [0,1) the steer heading lies in (0, 2 * M_PI]. -/
lemma GetMagEncoderReading_range (M_PI absolutePosition encoderOffset : α) (hpi : 0 < M_PI)
    (ha : 0 ≤ absolutePosition ∧ absolutePosition < 1)
    (ho : 0 ≤ encoderOffset ∧ encoderOffset < 1) :
    0 < GetMagEncoderReading M_PI absolutePosition encoderOffset ∧
      GetMagEncoderReading M_PI absolutePosition encoderOffset ≤ 2 * M_PI := by
  obtain ⟨ha0, ha1⟩ := ha
  obtain ⟨ho0, ho1⟩ := ho
  simp only [GetMagEncoderReading]
  split_ifs with h
  · constructor
    · apply mul_pos _ (by linarith)
      linarith
    · nlinarith
  · constructor
    · apply mul_pos _ (by linarith)
      linarith
    · nlinarith

/-- C6: the code when the absolute encoder reads exactly the calibrated offset.  The
offset-subtracted reading is 0, is not wrapped, and is inverted to 1, so
`GetMagEncoderReading` returns `2 * M_PI`, which is outside the half-open interval
[0, 2 * M_PI).  This holds for every reading; reading and offset 1/4 is one instance. -/
theorem mag_encoder_reading_at_offset :
    (∀ (M_PI x : α), GetMagEncoderReading M_PI x x = 2 * M_PI) ∧
    GetMagEncoderReading Real.pi (1 / 4) (1 / 4) = 2 * Real.pi ∧
    ¬ (GetMagEncoderReading Real.pi (1 / 4) (1 / 4) < 2 * Real.pi) := by
  have hgen : ∀ (β : Type) [LinearOrderedField β] (M x : β),
      GetMagEncoderReading M x x = 2 * M := by
    intro β _ M x
    simp [GetMagEncoderReading]
  refine ⟨fun M x => hgen α M x, hgen ℝ _ _, ?_⟩
  rw [hgen ℝ]
  exact lt_irrefl _

/-- The function `fmod` returns its first argument when that is smaller in magnitude than the
second. -/
lemma fmod_eq_self [FloorRing α] (x y : α) (hlo : -y < x) (hhi : x < y) : fmod x y = x := by
  have hy : 0 < y := by linarith
  unfold fmod
  split_ifs with h
  · have h1 : x / y < 1 := (div_lt_one hy).mpr hhi
    have hf : ⌊x / y⌋ = 0 := Int.floor_eq_zero_iff.mpr ⟨h, h1⟩
    rw [hf]
    simp
  · have h0 : x / y ≤ 0 := le_of_lt (not_le.mp h)
    have h1 : -1 < x / y := by
      rw [lt_div_iff₀ hy]
      linarith
    have hc : ⌈x / y⌉ = 0 := by
      rw [Int.ceil_eq_iff]
      constructor
      · simpa using h1
      · simpa using h0
    rw [hc]
    simp

/-- The value of `GetIMURadians` in terms of the offset-subtracted angle, when the raw yaw is
smaller than 360 degrees in magnitude. -/
lemma GetIMURadians_of_small_yaw [FloorRing α] (M_PI yaw pigeon_initial : α)
    (hlo : -360 < yaw) (hhi : yaw < 360) :
    GetIMURadians M_PI yaw pigeon_initial =
      (if 360 - (if yaw - pigeon_initial < 0 then yaw - pigeon_initial + 360
            else yaw - pigeon_initial) = 360 then 0
        else 360 - (if yaw - pigeon_initial < 0 then yaw - pigeon_initial + 360
            else yaw - pigeon_initial)) * (M_PI / 180) := by
  simp only [GetIMURadians, fmod_eq_self yaw 360 hlo hhi]

/-- C9: for a raw yaw and a calibration offset in [0,360), `GetIMURadians` returns a value in
[0, 2 * M_PI); when the yaw equals the offset, so that the inverted angle is exactly 360, it
returns 0. -/
theorem imu_radians_in_range [FloorRing α] (M_PI yaw pigeon_initial : α) (hpi : 0 < M_PI)
    (hy : 0 ≤ yaw ∧ yaw < 360) (hi : 0 ≤ pigeon_initial ∧ pigeon_initial < 360) :
    (0 ≤ GetIMURadians M_PI yaw pigeon_initial ∧
      GetIMURadians M_PI yaw pigeon_initial < 2 * M_PI) ∧
    (yaw = pigeon_initial → GetIMURadians M_PI yaw pigeon_initial = 0) := by
  obtain ⟨hy0, hy1⟩ := hy
  obtain ⟨hi0, hi1⟩ := hi
  have hk : 0 < M_PI / 180 := div_pos hpi (by norm_num)
  have h2 : 2 * M_PI = 360 * (M_PI / 180) := by ring
  rw [GetIMURadians_of_small_yaw M_PI yaw pigeon_initial (by linarith) hy1, h2]
  refine ⟨?_, ?_⟩
  · split_ifs with h1 h2 h3
    · exact ⟨by simp, mul_lt_mul_of_pos_right (by norm_num) hk⟩
    · exact ⟨mul_nonneg (by linarith) hk.le, mul_lt_mul_of_pos_right (by linarith) hk⟩
    · exact ⟨by simp, mul_lt_mul_of_pos_right (by norm_num) hk⟩
    · have hne : yaw - pigeon_initial ≠ 0 := fun h0 => h3 (by rw [h0]; ring)
      have hpos : 0 < yaw - pigeon_initial := lt_of_le_of_ne (not_lt.mp h1) (Ne.symm hne)
      exact ⟨mul_nonneg (by linarith) hk.le, mul_lt_mul_of_pos_right (by linarith) hk⟩
  · intro heq
    simp [heq]

/-- Witness for C9: yaw 90 degrees with calibration offset 90 degrees, on the reals. -/
theorem imu_radians_in_range_witness :
    (0 : ℝ) < Real.pi ∧ ((0 : ℝ) ≤ 90 ∧ (90 : ℝ) < 360) ∧
    (0 ≤ GetIMURadians Real.pi 90 90 ∧ GetIMURadians Real.pi 90 90 < 2 * Real.pi) ∧
    GetIMURadians Real.pi 90 90 = 0 :=
  ⟨Real.pi_pos, by norm_num,
    (imu_radians_in_range Real.pi 90 90 Real.pi_pos (by norm_num) (by norm_num)).1,
    (imu_radians_in_range Real.pi 90 90 Real.pi_pos (by norm_num) (by norm_num)).2 rfl⟩

/-- With raw yaw 270 degrees and calibration offset 0 the heading is a quarter turn. -/
lemma GetIMURadians_quarter_turn : GetIMURadians Real.pi 270 0 = Real.pi / 2 := by
  rw [GetIMURadians_of_small_yaw Real.pi 270 0 (by norm_num) (by norm_num)]
  norm_num
  ring

/-- C7: what the code hands on.  The forward component is `fwd * cos θ + strafe * sin θ`, but
the strafe component is computed from the forward component that was just overwritten:
`-(fwd * cos θ + strafe * sin θ) * sin θ + strafe * cos θ`.  At raw yaw 270 degrees with
offset 0 (heading `π / 2`) and the input (1, 0) the code hands on (0, 0), whereas the rotation
of the input by `-θ` is (0, -1). -/
theorem field_oriented_strafe_reads_overwritten_forward :
    (∀ (cos sin : α → α) (θ fwd strafe : α),
      fieldOrientedSpeeds cos sin θ fwd strafe =
        (fwd * cos θ + strafe * sin θ,
          -1 * (fwd * cos θ + strafe * sin θ) * sin θ + strafe * cos θ)) ∧
    fieldOrientedSpeeds Real.cos Real.sin (GetIMURadians Real.pi 270 0) 1 0 = (0, 0) ∧
    ((1 : ℝ) * Real.cos (GetIMURadians Real.pi 270 0) +
        0 * Real.sin (GetIMURadians Real.pi 270 0),
      -1 * (1 : ℝ) * Real.sin (GetIMURadians Real.pi 270 0) +
        0 * Real.cos (GetIMURadians Real.pi 270 0)) = (0, -1) := by
  refine ⟨fun cos sin θ fwd strafe => rfl, ?_, ?_⟩
  · rw [GetIMURadians_quarter_turn]
    simp [fieldOrientedSpeeds]
  · rw [GetIMURadians_quarter_turn]
    simp

/-- C8: the code does not preserve the norm.  At raw yaw 270 degrees with offset 0 (heading
`π / 2`) the input (3, 4), of squared norm 25, is mapped to (4, -4), of squared norm 32. -/
theorem field_oriented_changes_norm :
    fieldOrientedSpeeds Real.cos Real.sin (GetIMURadians Real.pi 270 0) 3 4 = (4, -4) ∧
    (fieldOrientedSpeeds Real.cos Real.sin (GetIMURadians Real.pi 270 0) 3 4).1 ^ 2 +
      (fieldOrientedSpeeds Real.cos Real.sin (GetIMURadians Real.pi 270 0) 3 4).2 ^ 2 = 32 ∧
    (3 : ℝ) ^ 2 + 4 ^ 2 = 25 := by
  have h : fieldOrientedSpeeds Real.cos Real.sin (GetIMURadians Real.pi 270 0) 3 4 = (4, -4) := by
    rw [GetIMURadians_quarter_turn]
    simp [fieldOrientedSpeeds]
  refine ⟨h, ?_, by norm_num⟩
  rw [h]
  norm_num

/-- C10: the code at a negative raw yaw.  For yaw -100 degrees and calibration offset 300
degrees, `fmod` leaves -100, the offset-subtracted angle is -400, the single addition of 360
leaves -40, and the inversion gives 400 degrees: the returned heading is `20 * π / 9`, which is
larger than `2 * π`. -/
theorem imu_radians_negative_yaw_out_of_range :
    fmod (-100 : ℝ) 360 = -100 ∧
    GetIMURadians Real.pi (-100) 300 = 20 * Real.pi / 9 ∧
    2 * Real.pi < GetIMURadians Real.pi (-100) 300 := by
  have h : GetIMURadians Real.pi (-100) 300 = 20 * Real.pi / 9 := by
    rw [GetIMURadians_of_small_yaw Real.pi (-100) 300 (by norm_num) (by norm_num)]
    norm_num
    ring
  refine ⟨fmod_eq_self _ _ (by norm_num) (by norm_num), h, ?_⟩
  rw [h]
  linarith [Real.pi_pos]

/-- C11: after `ResetEncoders` has captured the raw drive reading `p0`, for every later raw
drive reading `p` the function `GetDriveEncoderMeters` returns
`(p - p0) / 2048 / DRIVE_MOTOR_GEAR_RATIO * DRIVE_MOTOR_CIRCUMFERENCE`; with unchanged readings
it returns 0 after one `ResetEncoders` and after two in immediate succession. -/
theorem drive_meters_since_reset
    (M_PI DRIVE_MOTOR_GEAR_RATIO DRIVE_MOTOR_CIRCUMFERENCE : α)
    (m : SwerveModule α) (r0 r : ModuleReadings α) :
    GetDriveEncoderMeters DRIVE_MOTOR_GEAR_RATIO DRIVE_MOTOR_CIRCUMFERENCE
        (ResetEncoders M_PI m r0) r =
      (r.drivePosition - r0.drivePosition) / 2048 / DRIVE_MOTOR_GEAR_RATIO *
        DRIVE_MOTOR_CIRCUMFERENCE ∧
    GetDriveEncoderMeters DRIVE_MOTOR_GEAR_RATIO DRIVE_MOTOR_CIRCUMFERENCE
        (ResetEncoders M_PI (ResetEncoders M_PI m r0) r0) r =
      (r.drivePosition - r0.drivePosition) / 2048 / DRIVE_MOTOR_GEAR_RATIO *
        DRIVE_MOTOR_CIRCUMFERENCE ∧
    GetDriveEncoderMeters DRIVE_MOTOR_GEAR_RATIO DRIVE_MOTOR_CIRCUMFERENCE
        (ResetEncoders M_PI m r0) r0 = 0 ∧
    GetDriveEncoderMeters DRIVE_MOTOR_GEAR_RATIO DRIVE_MOTOR_CIRCUMFERENCE
        (ResetEncoders M_PI (ResetEncoders M_PI m r0) r0) r0 = 0 := by
  refine ⟨rfl, rfl, ?_, ?_⟩ <;> simp [GetDriveEncoderMeters, ResetEncoders]

/-- The function `fmod` returns 0 at the negated modulus. -/
lemma fmod_neg_self [FloorRing α] (y : α) (hy : 0 < y) : fmod (-y) y = 0 := by
  have hq : -y / y = -1 := by
    rw [neg_div, div_self (ne_of_gt hy)]
  have hneg : ¬ ((0 : α) ≤ -1) := by norm_num
  have hc : ⌈(-1 : α)⌉ = -1 := by
    have h := Int.ceil_intCast (-1 : ℤ) (α := α)
    simpa using h
  unfold fmod
  rw [hq, if_neg hneg, hc]
  push_cast
  ring

/-- For a reading and an offset in [0,1) that differ, the steer heading is below `2 * M_PI`. -/
lemma GetMagEncoderReading_lt (M_PI absolutePosition encoderOffset : α) (hpi : 0 < M_PI)
    (ha : 0 ≤ absolutePosition ∧ absolutePosition < 1)
    (ho : 0 ≤ encoderOffset ∧ encoderOffset < 1) (hne : absolutePosition ≠ encoderOffset) :
    GetMagEncoderReading M_PI absolutePosition encoderOffset < 2 * M_PI := by
  obtain ⟨ha0, ha1⟩ := ha
  obtain ⟨ho0, ho1⟩ := ho
  simp only [GetMagEncoderReading]
  split_ifs with h
  · nlinarith
  · have h0 : absolutePosition - encoderOffset ≠ 0 := sub_ne_zero.mpr hne
    have hpos : 0 < absolutePosition - encoderOffset := lt_of_le_of_ne (not_lt.mp h) (Ne.symm h0)
    nlinarith

/-- After `ResetEncoders`, with unchanged readings, the local variable `rotation` of
`GetSpinEncoderRadians` is minus the steer heading captured by the reset. -/
lemma GetSpinEncoderRadians_after_reset [FloorRing α] (M_PI SPIN_MOTOR_GEAR_RATIO : α)
    (m : SwerveModule α) (r : ModuleReadings α) :
    GetSpinEncoderRadians M_PI SPIN_MOTOR_GEAR_RATIO (ResetEncoders M_PI m r) r =
      fmod (-GetMagEncoderReading M_PI r.absolutePosition m.encoderOffset) (2 * M_PI) := by
  simp [GetSpinEncoderRadians, ResetEncoders]

/-- C12, counterexample: with the absolute encoder at 3/4 of a turn, offset 0 and the raw
steer-motor reading 0, `GetSpinEncoderRadians` right after `ResetEncoders` returns `-(π / 2)`,
which is not 0. -/
theorem spin_radians_after_reset_nonzero :
    GetSpinEncoderRadians Real.pi 1
        (ResetEncoders Real.pi (SwerveModule.mk 0 0 0 0) (ModuleReadings.mk 0 0 0 (3 / 4)))
        (ModuleReadings.mk 0 0 0 (3 / 4)) = -(Real.pi / 2) ∧
    GetSpinEncoderRadians Real.pi 1
        (ResetEncoders Real.pi (SwerveModule.mk 0 0 0 0) (ModuleReadings.mk 0 0 0 (3 / 4)))
        (ModuleReadings.mk 0 0 0 (3 / 4)) ≠ 0 := by
  have hmag : GetMagEncoderReading Real.pi (3 / 4) 0 = Real.pi / 2 := by
    have h : ¬ ((3 : ℝ) / 4 - 0 < 0) := by norm_num
    simp only [GetMagEncoderReading, if_neg h]
    ring
  have hval : GetSpinEncoderRadians Real.pi 1
        (ResetEncoders Real.pi (SwerveModule.mk 0 0 0 0) (ModuleReadings.mk 0 0 0 (3 / 4)))
        (ModuleReadings.mk 0 0 0 (3 / 4)) = -(Real.pi / 2) := by
    rw [GetSpinEncoderRadians_after_reset]
    simp only [hmag]
    exact fmod_eq_self _ _ (by linarith [Real.pi_pos]) (by linarith [Real.pi_pos])
  refine ⟨hval, ?_⟩
  rw [hval]
  exact neg_ne_zero.mpr (ne_of_gt (by linarith [Real.pi_pos]))

/-- C12, amended: for a reading of the absolute encoder and an offset in [0,1) and every raw
steer-motor reading, after `ResetEncoders` (once, or twice in immediate succession) with
unchanged readings, `GetSpinEncoderRadians` returns minus the steer heading captured by the
reset when the reading differs from the offset, and 0 when the reading equals the offset. -/
theorem spin_radians_after_reset [FloorRing α] (M_PI SPIN_MOTOR_GEAR_RATIO : α)
    (m : SwerveModule α) (r : ModuleReadings α) (hpi : 0 < M_PI)
    (ha : 0 ≤ r.absolutePosition ∧ r.absolutePosition < 1)
    (ho : 0 ≤ m.encoderOffset ∧ m.encoderOffset < 1) :
    GetSpinEncoderRadians M_PI SPIN_MOTOR_GEAR_RATIO (ResetEncoders M_PI m r) r =
      (if r.absolutePosition = m.encoderOffset then 0
        else -GetMagEncoderReading M_PI r.absolutePosition m.encoderOffset) ∧
    GetSpinEncoderRadians M_PI SPIN_MOTOR_GEAR_RATIO
        (ResetEncoders M_PI (ResetEncoders M_PI m r) r) r =
      (if r.absolutePosition = m.encoderOffset then 0
        else -GetMagEncoderReading M_PI r.absolutePosition m.encoderOffset) := by
  have h2pi : 0 < 2 * M_PI := by linarith
  have key : fmod (-GetMagEncoderReading M_PI r.absolutePosition m.encoderOffset) (2 * M_PI) =
      (if r.absolutePosition = m.encoderOffset then 0
        else -GetMagEncoderReading M_PI r.absolutePosition m.encoderOffset) := by
    split_ifs with h
    · have hm : GetMagEncoderReading M_PI r.absolutePosition m.encoderOffset = 2 * M_PI := by
        rw [h]
        simp [GetMagEncoderReading]
      rw [hm]
      exact fmod_neg_self _ h2pi
    · have hlt := GetMagEncoderReading_lt M_PI r.absolutePosition m.encoderOffset hpi ha ho h
      have hpos := (GetMagEncoderReading_range M_PI r.absolutePosition m.encoderOffset
        hpi ha ho).1
      exact fmod_eq_self _ _ (by linarith) (by linarith)
  refine ⟨?_, ?_⟩
  · rw [GetSpinEncoderRadians_after_reset, key]
  · have hoff : (ResetEncoders M_PI m r).encoderOffset = m.encoderOffset := rfl
    rw [GetSpinEncoderRadians_after_reset, hoff, key]

/-- Witness for C12, amended: absolute encoder at 3/4 of a turn, offset 0, on the reals. -/
theorem spin_radians_after_reset_witness :
    (0 : ℝ) < Real.pi ∧ ((0 : ℝ) ≤ 3 / 4 ∧ (3 : ℝ) / 4 < 1) ∧ ((0 : ℝ) ≤ 0 ∧ (0 : ℝ) < 1) ∧
    GetSpinEncoderRadians Real.pi 1
        (ResetEncoders Real.pi (SwerveModule.mk 0 5 6 7) (ModuleReadings.mk 10 0 20 (3 / 4)))
        (ModuleReadings.mk 10 0 20 (3 / 4)) =
      (if (3 : ℝ) / 4 = 0 then 0 else -GetMagEncoderReading Real.pi (3 / 4) 0) :=
  ⟨Real.pi_pos, by norm_num, by norm_num,
    (spin_radians_after_reset Real.pi 1 (SwerveModule.mk 0 5 6 7)
      (ModuleReadings.mk 10 0 20 (3 / 4)) Real.pi_pos (by norm_num) (by norm_num)).1⟩

/-- With no rotation the four raw targets coincide. -/
lemma rawWheelTargets_no_turn (sqrt : α → α) (atan2 : α → α → α)
    (M_PI DRIVE_LENGTH DRIVE_WIDTH FWD STRAFE : α) :
    rawWheelTargets sqrt atan2 M_PI DRIVE_LENGTH DRIVE_WIDTH FWD STRAFE 0 =
      WheelTargets.mk (atan2 STRAFE FWD * 180 / M_PI) (atan2 STRAFE FWD * 180 / M_PI)
        (atan2 STRAFE FWD * 180 / M_PI) (atan2 STRAFE FWD * 180 / M_PI)
        (sqrt (FWD ^ 2 + STRAFE ^ 2)) (sqrt (FWD ^ 2 + STRAFE ^ 2))
        (sqrt (FWD ^ 2 + STRAFE ^ 2)) (sqrt (FWD ^ 2 + STRAFE ^ 2)) := by
  simp only [rawWheelTargets, zero_mul, sub_zero, add_zero, add_comm (STRAFE ^ 2) (FWD ^ 2)]

/-- The scaling step on four equal speeds `v` leaves `v` when `v ≤ 1` and gives 1 otherwise. -/
lemma scaleDriveSpeeds_equal (a b c d v : α) :
    scaleDriveSpeeds (WheelTargets.mk a b c d v v v v) =
      WheelTargets.mk a b c d (if v ≤ 1 then v else 1) (if v ≤ 1 then v else 1)
        (if v ≤ 1 then v else 1) (if v ≤ 1 then v else 1) := by
  have hmax : maxDriveSpeed (WheelTargets.mk a b c d v v v v) = v := by
    simp [maxDriveSpeed]
  unfold scaleDriveSpeeds
  simp only [hmax]
  by_cases h : v ≤ 1
  · rw [if_neg (not_lt.mpr h), if_pos h]
  · have hv : 1 < v := not_le.mp h
    have hv0 : v ≠ 0 := ne_of_gt (lt_trans zero_lt_one hv)
    rw [if_pos hv, if_neg h, div_self hv0]

/-- The point (1, 0) of the complex plane has argument 0. -/
lemma arg_mk_one_zero : Complex.arg ⟨1, 0⟩ = 0 := by
  have h : (⟨1, 0⟩ : ℂ) = 1 := by
    apply Complex.ext <;> simp
  rw [h, Complex.arg_one]

/-- For a command without rotation that is not the zero command, the four modules are called
with the common speed, capped at 1, and the common target angle. -/
lemma DriveSwervePercentCalls_no_turn (sqrt : α → α) (atan2 : α → α → α)
    (M_PI DRIVE_LENGTH DRIVE_WIDTH FWD STRAFE : α) (hcmd : ¬ (FWD = 0 ∧ STRAFE = 0)) :
    DriveSwervePercentCalls sqrt atan2 M_PI DRIVE_LENGTH DRIVE_WIDTH FWD STRAFE 0 =
      DriveCalls.mk
        (ModuleCall.DriveSwerveModulePercent
          (if sqrt (FWD ^ 2 + STRAFE ^ 2) ≤ 1 then sqrt (FWD ^ 2 + STRAFE ^ 2) else 1)
          (atan2 STRAFE FWD * 180 / M_PI))
        (ModuleCall.DriveSwerveModulePercent
          (if sqrt (FWD ^ 2 + STRAFE ^ 2) ≤ 1 then sqrt (FWD ^ 2 + STRAFE ^ 2) else 1)
          (atan2 STRAFE FWD * 180 / M_PI))
        (ModuleCall.DriveSwerveModulePercent
          (if sqrt (FWD ^ 2 + STRAFE ^ 2) ≤ 1 then sqrt (FWD ^ 2 + STRAFE ^ 2) else 1)
          (atan2 STRAFE FWD * 180 / M_PI))
        (ModuleCall.DriveSwerveModulePercent
          (if sqrt (FWD ^ 2 + STRAFE ^ 2) ≤ 1 then sqrt (FWD ^ 2 + STRAFE ^ 2) else 1)
          (atan2 STRAFE FWD * 180 / M_PI)) := by
  have h3 : ¬ (FWD = 0 ∧ STRAFE = 0 ∧ (0 : α) = 0) := fun hh => hcmd ⟨hh.1, hh.2.1⟩
  unfold DriveSwervePercentCalls
  rw [if_neg h3]
  simp only [rawWheelTargets_no_turn, scaleDriveSpeeds_equal]

/-- C13: for a command with rotation 0 and (forward, strafe) different from (0, 0), and a
non-degenerate geometry, `DriveSwervePercent` calls `DriveSwerveModulePercent` on all four
modules with the same target angle, `atan2(strafe, forward)` in degrees, and the same speed,
`sqrt(forward^2 + strafe^2)` when that is at most 1 and 1 otherwise.  The command (1, 0, 0)
gives four target angles 0 and four speeds 1. -/
theorem translation_gives_equal_targets (atan2 : ℝ → ℝ → ℝ)
    (M_PI DRIVE_LENGTH DRIVE_WIDTH FWD STRAFE : ℝ)
    (_hgeo : ¬ (DRIVE_LENGTH = 0 ∧ DRIVE_WIDTH = 0)) (hcmd : ¬ (FWD = 0 ∧ STRAFE = 0)) :
    DriveSwervePercentCalls Real.sqrt atan2 M_PI DRIVE_LENGTH DRIVE_WIDTH FWD STRAFE 0 =
      DriveCalls.mk
        (ModuleCall.DriveSwerveModulePercent
          (if Real.sqrt (FWD ^ 2 + STRAFE ^ 2) ≤ 1 then Real.sqrt (FWD ^ 2 + STRAFE ^ 2) else 1)
          (atan2 STRAFE FWD * 180 / M_PI))
        (ModuleCall.DriveSwerveModulePercent
          (if Real.sqrt (FWD ^ 2 + STRAFE ^ 2) ≤ 1 then Real.sqrt (FWD ^ 2 + STRAFE ^ 2) else 1)
          (atan2 STRAFE FWD * 180 / M_PI))
        (ModuleCall.DriveSwerveModulePercent
          (if Real.sqrt (FWD ^ 2 + STRAFE ^ 2) ≤ 1 then Real.sqrt (FWD ^ 2 + STRAFE ^ 2) else 1)
          (atan2 STRAFE FWD * 180 / M_PI))
        (ModuleCall.DriveSwerveModulePercent
          (if Real.sqrt (FWD ^ 2 + STRAFE ^ 2) ≤ 1 then Real.sqrt (FWD ^ 2 + STRAFE ^ 2) else 1)
          (atan2 STRAFE FWD * 180 / M_PI)) ∧
    DriveSwervePercentCalls Real.sqrt (fun y x => Complex.arg ⟨x, y⟩) Real.pi
        DRIVE_LENGTH DRIVE_WIDTH 1 0 0 =
      DriveCalls.mk (ModuleCall.DriveSwerveModulePercent 1 0)
        (ModuleCall.DriveSwerveModulePercent 1 0) (ModuleCall.DriveSwerveModulePercent 1 0)
        (ModuleCall.DriveSwerveModulePercent 1 0) := by
  refine ⟨DriveSwervePercentCalls_no_turn Real.sqrt atan2 M_PI DRIVE_LENGTH DRIVE_WIDTH
    FWD STRAFE hcmd, ?_⟩
  rw [DriveSwervePercentCalls_no_turn Real.sqrt (fun y x => Complex.arg ⟨x, y⟩) Real.pi
    DRIVE_LENGTH DRIVE_WIDTH 1 0 (by norm_num)]
  simp [arg_mk_one_zero]

/-- Witness for C13: the command (forward, strafe, rotation) = (3/5, 4/5, 0), with half-length
and half-width 1. -/
theorem translation_gives_equal_targets_witness :
    ¬ ((1 : ℝ) = 0 ∧ (1 : ℝ) = 0) ∧ ¬ ((3 / 5 : ℝ) = 0 ∧ (4 / 5 : ℝ) = 0) ∧
    DriveSwervePercentCalls Real.sqrt (fun y x => Complex.arg ⟨x, y⟩) Real.pi 1 1
        (3 / 5) (4 / 5) 0 =
      DriveCalls.mk
        (ModuleCall.DriveSwerveModulePercent
          (if Real.sqrt ((3 / 5) ^ 2 + (4 / 5) ^ 2) ≤ 1 then Real.sqrt ((3 / 5) ^ 2 + (4 / 5) ^ 2)
            else 1)
          (Complex.arg ⟨3 / 5, 4 / 5⟩ * 180 / Real.pi))
        (ModuleCall.DriveSwerveModulePercent
          (if Real.sqrt ((3 / 5) ^ 2 + (4 / 5) ^ 2) ≤ 1 then Real.sqrt ((3 / 5) ^ 2 + (4 / 5) ^ 2)
            else 1)
          (Complex.arg ⟨3 / 5, 4 / 5⟩ * 180 / Real.pi))
        (ModuleCall.DriveSwerveModulePercent
          (if Real.sqrt ((3 / 5) ^ 2 + (4 / 5) ^ 2) ≤ 1 then Real.sqrt ((3 / 5) ^ 2 + (4 / 5) ^ 2)
            else 1)
          (Complex.arg ⟨3 / 5, 4 / 5⟩ * 180 / Real.pi))
        (ModuleCall.DriveSwerveModulePercent
          (if Real.sqrt ((3 / 5) ^ 2 + (4 / 5) ^ 2) ≤ 1 then Real.sqrt ((3 / 5) ^ 2 + (4 / 5) ^ 2)
            else 1)
          (Complex.arg ⟨3 / 5, 4 / 5⟩ * 180 / Real.pi)) :=
  ⟨by norm_num, by norm_num,
    (translation_gives_equal_targets (fun y x => Complex.arg ⟨x, y⟩) Real.pi 1 1
      (3 / 5) (4 / 5) (by norm_num) (by norm_num)).1⟩

/-- C14: when the heading returned by `GetIMURadians` is 0,
`DriveSwerveMetersAndRadiansFieldOriented(fwd, strafe, turn)` calls `DriveSwervePercent` with
exactly `(fwd / SWERVE_DRIVE_MAX_MPS, strafe / SWERVE_DRIVE_MAX_MPS,
turn / MAX_RADIAN_PER_SECOND)`. -/
theorem field_oriented_identity_at_zero_heading
    (M_PI SWERVE_DRIVE_MAX_MPS MAX_RADIAN_PER_SECOND yaw pigeon_initial FWD STRAFE Turn : ℝ)
    (hzero : GetIMURadians M_PI yaw pigeon_initial = 0) :
    DriveSwerveMetersAndRadiansFieldOrientedArgs Real.cos Real.sin M_PI SWERVE_DRIVE_MAX_MPS
        MAX_RADIAN_PER_SECOND yaw pigeon_initial FWD STRAFE Turn =
      (FWD / SWERVE_DRIVE_MAX_MPS, STRAFE / SWERVE_DRIVE_MAX_MPS,
        Turn / MAX_RADIAN_PER_SECOND) := by
  simp [DriveSwerveMetersAndRadiansFieldOrientedArgs, fieldOrientedSpeeds, hzero]

/-- Witness for C14: raw yaw 90 degrees with calibration offset 90 degrees (heading 0), maximum
speeds 4 and 6, command (1, 2, 3). -/
theorem field_oriented_identity_at_zero_heading_witness :
    GetIMURadians Real.pi 90 90 = 0 ∧
    DriveSwerveMetersAndRadiansFieldOrientedArgs Real.cos Real.sin Real.pi 4 6 90 90 1 2 3 =
      ((1 : ℝ) / 4, (2 : ℝ) / 4, (3 : ℝ) / 6) := by
  have h : GetIMURadians Real.pi 90 90 = 0 := by
    rw [GetIMURadians_of_small_yaw Real.pi 90 90 (by norm_num) (by norm_num)]
    norm_num
  exact ⟨h, field_oriented_identity_at_zero_heading Real.pi 4 6 90 90 1 2 3 h⟩

/-- C15, counterexample: for the target angle 400 the value compared against the wheel
heading is 400 itself, which is not in [0,360). -/
theorem target_angle_400_not_reduced :
    (DriveSwerveModulePercentFrom (1 : ℚ) 0 1 400).targetAngle = 400 ∧
    ¬ ((DriveSwerveModulePercentFrom (1 : ℚ) 0 1 400).targetAngle < 360) := by
  constructor <;> norm_num [DriveSwerveModulePercentFrom]

/-- C15, amended: for every target angle in [-360,360) passed to `DriveSwerveModulePercent`,
the value compared against the wheel heading in the case split lies in [0,360) and differs
from the input by a multiple of 360. -/
theorem target_angle_normalized (WHEEL_SPIN_KP wheelAngle driveSpeed targetAngle : α)
    (ht : -360 ≤ targetAngle ∧ targetAngle < 360) :
    (0 ≤ (DriveSwerveModulePercentFrom WHEEL_SPIN_KP wheelAngle driveSpeed
        targetAngle).targetAngle ∧
      (DriveSwerveModulePercentFrom WHEEL_SPIN_KP wheelAngle driveSpeed
        targetAngle).targetAngle < 360) ∧
    (∃ k : ℤ, (DriveSwerveModulePercentFrom WHEEL_SPIN_KP wheelAngle driveSpeed
        targetAngle).targetAngle = targetAngle + 360 * (k : α)) ∧
    (((DriveSwerveModulePercentFrom WHEEL_SPIN_KP wheelAngle driveSpeed targetAngle).error,
        (DriveSwerveModulePercentFrom WHEEL_SPIN_KP wheelAngle driveSpeed
          targetAngle).spinDirection,
        (DriveSwerveModulePercentFrom WHEEL_SPIN_KP wheelAngle driveSpeed
          targetAngle).driveDirection) =
      steerCase wheelAngle (DriveSwerveModulePercentFrom WHEEL_SPIN_KP wheelAngle driveSpeed
        targetAngle).targetAngle) := by
  obtain ⟨ht0, ht1⟩ := ht
  refine ⟨?_, ?_, rfl⟩
  · simp only [DriveSwerveModulePercentFrom]
    split_ifs with h
    · exact ⟨by linarith, by linarith⟩
    · exact ⟨not_lt.mp h, ht1⟩
  · simp only [DriveSwerveModulePercentFrom]
    split_ifs with h
    · exact ⟨1, by push_cast; ring⟩
    · exact ⟨0, by push_cast; ring⟩

/-- Witness for C15, amended: the target angle -90 is compared as 270. -/
theorem target_angle_normalized_witness :
    ((-360 : ℚ) ≤ -90 ∧ (-90 : ℚ) < 360) ∧
    (DriveSwerveModulePercentFrom (1 : ℚ) 0 1 (-90)).targetAngle = 270 ∧
    (0 ≤ (DriveSwerveModulePercentFrom (1 : ℚ) 0 1 (-90)).targetAngle ∧
      (DriveSwerveModulePercentFrom (1 : ℚ) 0 1 (-90)).targetAngle < 360) ∧
    (∃ k : ℤ, (DriveSwerveModulePercentFrom (1 : ℚ) 0 1 (-90)).targetAngle =
      -90 + 360 * (k : ℚ)) :=
  ⟨by norm_num, by norm_num [DriveSwerveModulePercentFrom],
    (target_angle_normalized (1 : ℚ) 0 1 (-90) (by norm_num)).1,
    (target_angle_normalized (1 : ℚ) 0 1 (-90) (by norm_num)).2.1⟩

/-- The steer direction is +1 or -1, except in the fall-through for equal angles, where the
direction and the error are both 0. -/
lemma steerCase_spinDirection (wheelAngle targetAngle : α) :
    (steerCase wheelAngle targetAngle).2.1 = 1 ∨ (steerCase wheelAngle targetAngle).2.1 = -1 ∨
      ((steerCase wheelAngle targetAngle).2.1 = 0 ∧ (steerCase wheelAngle targetAngle).1 = 0) := by
  unfold steerCase
  split_ifs <;> simp

/-- The drive direction is +1, -1 or 0. -/
lemma steerCase_driveDirection (wheelAngle targetAngle : α) :
    (steerCase wheelAngle targetAngle).2.2 = 1 ∨ (steerCase wheelAngle targetAngle).2.2 = -1 ∨
      (steerCase wheelAngle targetAngle).2.2 = 0 := by
  unfold steerCase
  split_ifs <;> simp

/-- For angles between 0 and 360 the error of the case split lies in [0, 90]. -/
lemma steerCase_error_range (wheelAngle targetAngle : α)
    (hw : 0 ≤ wheelAngle ∧ wheelAngle ≤ 360) (ht : 0 ≤ targetAngle ∧ targetAngle ≤ 360) :
    0 ≤ (steerCase wheelAngle targetAngle).1 ∧ (steerCase wheelAngle targetAngle).1 ≤ 90 := by
  obtain ⟨hw0, hw1⟩ := hw
  obtain ⟨ht0, ht1⟩ := ht
  unfold steerCase
  split_ifs <;> constructor <;> simp only [] <;> linarith

/-- C16: for wheel and target angles in [0,360) and a gain `WHEEL_SPIN_KP ≥ 0`, the steer
output of `DriveSwerveModulePercent` is `spinDirection * WHEEL_SPIN_KP * (error / 90)` with
`error ≥ 0`; its magnitude is `WHEEL_SPIN_KP * error / 90`, at most `WHEEL_SPIN_KP`, and when
that magnitude is positive the output is positive for steer direction +1 and negative for
steer direction -1. -/
theorem steer_output_proportional (WHEEL_SPIN_KP wheelAngle driveSpeed targetAngle : α)
    (hw : 0 ≤ wheelAngle ∧ wheelAngle < 360) (ht : 0 ≤ targetAngle ∧ targetAngle < 360)
    (hk : 0 ≤ WHEEL_SPIN_KP) :
    (DriveSwerveModulePercentFrom WHEEL_SPIN_KP wheelAngle driveSpeed targetAngle).spinMotor =
      ((DriveSwerveModulePercentFrom WHEEL_SPIN_KP wheelAngle driveSpeed
          targetAngle).spinDirection : α) * WHEEL_SPIN_KP *
        ((DriveSwerveModulePercentFrom WHEEL_SPIN_KP wheelAngle driveSpeed targetAngle).error
          / 90) ∧
    0 ≤ (DriveSwerveModulePercentFrom WHEEL_SPIN_KP wheelAngle driveSpeed targetAngle).error ∧
    |(DriveSwerveModulePercentFrom WHEEL_SPIN_KP wheelAngle driveSpeed targetAngle).spinMotor| =
      WHEEL_SPIN_KP *
        (DriveSwerveModulePercentFrom WHEEL_SPIN_KP wheelAngle driveSpeed targetAngle).error
          / 90 ∧
    |(DriveSwerveModulePercentFrom WHEEL_SPIN_KP wheelAngle driveSpeed targetAngle).spinMotor|
      ≤ WHEEL_SPIN_KP ∧
    (0 < WHEEL_SPIN_KP *
        (DriveSwerveModulePercentFrom WHEEL_SPIN_KP wheelAngle driveSpeed targetAngle).error
          / 90 →
      ((DriveSwerveModulePercentFrom WHEEL_SPIN_KP wheelAngle driveSpeed
            targetAngle).spinDirection = 1 ∧
          0 < (DriveSwerveModulePercentFrom WHEEL_SPIN_KP wheelAngle driveSpeed
            targetAngle).spinMotor) ∨
        ((DriveSwerveModulePercentFrom WHEEL_SPIN_KP wheelAngle driveSpeed
            targetAngle).spinDirection = -1 ∧
          (DriveSwerveModulePercentFrom WHEEL_SPIN_KP wheelAngle driveSpeed
            targetAngle).spinMotor < 0)) := by
  have hneg : ¬ targetAngle < 0 := not_lt.mpr ht.1
  obtain ⟨he0, he1⟩ := steerCase_error_range wheelAngle targetAngle
    ⟨hw.1, le_of_lt hw.2⟩ ⟨ht.1, le_of_lt ht.2⟩
  have hmag0 : 0 ≤ WHEEL_SPIN_KP * (steerCase wheelAngle targetAngle).1 / 90 :=
    div_nonneg (mul_nonneg hk he0) (by norm_num)
  have hmag1 : WHEEL_SPIN_KP * (steerCase wheelAngle targetAngle).1 / 90 ≤ WHEEL_SPIN_KP := by
    rw [div_le_iff₀ (by norm_num : (0 : α) < 90)]
    exact mul_le_mul_of_nonneg_left he1 hk
  simp only [DriveSwerveModulePercentFrom, if_neg hneg]
  rcases steerCase_spinDirection wheelAngle targetAngle with hd | hd | ⟨hd, he⟩
  · have hval : WHEEL_SPIN_KP * ((steerCase wheelAngle targetAngle).1 / 90) * ((1 : ℤ) : α) =
        WHEEL_SPIN_KP * (steerCase wheelAngle targetAngle).1 / 90 := by
      push_cast
      ring
    rw [hd, hval, abs_of_nonneg hmag0]
    refine ⟨by push_cast; ring, he0, rfl, hmag1, fun hpos => Or.inl ⟨rfl, hpos⟩⟩
  · have hval : WHEEL_SPIN_KP * ((steerCase wheelAngle targetAngle).1 / 90) * ((-1 : ℤ) : α) =
        -(WHEEL_SPIN_KP * (steerCase wheelAngle targetAngle).1 / 90) := by
      push_cast
      ring
    rw [hd, hval, abs_neg, abs_of_nonneg hmag0]
    refine ⟨by push_cast; ring, he0, rfl, hmag1, fun hpos => Or.inr ⟨rfl, by linarith⟩⟩
  · rw [hd, he]
    refine ⟨by simp, le_refl _, by simp, by simpa using hk, fun hpos => ?_⟩
    simp at hpos

/-- Witness for C16: gain 1/2, wheel at 170 degrees and target at 10 degrees: the error is 20
and the steer output is 1/9. -/
theorem steer_output_proportional_witness :
    ((0 : ℚ) ≤ 170 ∧ (170 : ℚ) < 360) ∧ ((0 : ℚ) ≤ 10 ∧ (10 : ℚ) < 360) ∧ (0 : ℚ) ≤ 1 / 2 ∧
    (DriveSwerveModulePercentFrom (1 / 2 : ℚ) 170 1 10).spinMotor = 1 / 9 ∧
    |(DriveSwerveModulePercentFrom (1 / 2 : ℚ) 170 1 10).spinMotor| ≤ 1 / 2 :=
  ⟨by norm_num, by norm_num, by norm_num,
    by norm_num [DriveSwerveModulePercentFrom, steerCase],
    (steer_output_proportional (1 / 2 : ℚ) 170 1 10 (by norm_num) (by norm_num)
      (by norm_num)).2.2.2.1⟩

/-- After the scaling step, speeds that were nonnegative lie in [0, 1]. -/
lemma scaleDriveSpeeds_speed_range (w : WheelTargets α) (hnn : ∀ i, 0 ≤ w.speed i) (i : Fin 4) :
    0 ≤ (scaleDriveSpeeds w).speed i ∧ (scaleDriveSpeeds w).speed i ≤ 1 := by
  by_cases h : 1 < maxDriveSpeed w
  · have hpos : 0 < maxDriveSpeed w := lt_trans zero_lt_one h
    rw [scaleDriveSpeeds_speed w h i]
    exact ⟨div_nonneg (hnn i) hpos.le, (div_le_one hpos).mpr (speed_le_maxDriveSpeed w i)⟩
  · have hle : maxDriveSpeed w ≤ 1 := not_lt.mp h
    have hgt : ¬ (maxDriveSpeed w > 1) := h
    have hid : scaleDriveSpeeds w = w := by
      unfold scaleDriveSpeeds
      exact if_neg hgt
    rw [hid]
    exact ⟨hnn i, le_trans (speed_le_maxDriveSpeed w i) hle⟩

/-- The raw speeds computed with the real square root are nonnegative. -/
lemma rawWheelTargets_speed_nonneg (atan2 : ℝ → ℝ → ℝ)
    (M_PI DRIVE_LENGTH DRIVE_WIDTH FWD STRAFE Turn : ℝ) (i : Fin 4) :
    0 ≤ (rawWheelTargets Real.sqrt atan2 M_PI DRIVE_LENGTH DRIVE_WIDTH FWD STRAFE Turn).speed i := by
  fin_cases i <;> simp [WheelTargets.speed, rawWheelTargets, Real.sqrt_nonneg]

/-- A module asked for a speed in [0, 1] sets a drive output in [-1, 1], whatever its sensor
state is. -/
lemma module_drive_output_range (M_PI WHEEL_SPIN_KP : α) (m : ModuleSensor α)
    (driveSpeed targetAngle : α) (hv : 0 ≤ driveSpeed ∧ driveSpeed ≤ 1) :
    ((ModuleCall.DriveSwerveModulePercent driveSpeed targetAngle).outputs M_PI WHEEL_SPIN_KP
      m).driveMotor ∈ Set.Icc (-1 : α) 1 := by
  obtain ⟨hv0, hv1⟩ := hv
  simp only [ModuleCall.outputs, DriveSwerveModulePercent, DriveSwerveModulePercentFrom,
    Set.mem_Icc]
  rcases steerCase_driveDirection
    (GetMagEncoderReading M_PI m.absolutePosition m.encoderOffset * 180 / M_PI)
    (if targetAngle < 0 then targetAngle + 360 else targetAngle) with hd | hd | hd <;>
  rw [hd] <;> push_cast <;> constructor <;> linarith

/-- C17: for every command, every non-degenerate geometry and every sensor state of the four
modules (in particular for readings and offsets in [0,1)), the drive output that
`DriveSwervePercent` sets on each of the four modules lies in [-1, 1]. -/
theorem drive_outputs_within_unit (atan2 : ℝ → ℝ → ℝ)
    (M_PI WHEEL_SPIN_KP DRIVE_LENGTH DRIVE_WIDTH : ℝ) (FL FR BL BR : ModuleSensor ℝ)
    (FWD STRAFE Turn : ℝ) (_hgeo : ¬ (DRIVE_LENGTH = 0 ∧ DRIVE_WIDTH = 0)) :
    (DriveSwervePercent Real.sqrt atan2 M_PI WHEEL_SPIN_KP DRIVE_LENGTH DRIVE_WIDTH
        FL FR BL BR FWD STRAFE Turn).FLModule.driveMotor ∈ Set.Icc (-1 : ℝ) 1 ∧
    (DriveSwervePercent Real.sqrt atan2 M_PI WHEEL_SPIN_KP DRIVE_LENGTH DRIVE_WIDTH
        FL FR BL BR FWD STRAFE Turn).FRModule.driveMotor ∈ Set.Icc (-1 : ℝ) 1 ∧
    (DriveSwervePercent Real.sqrt atan2 M_PI WHEEL_SPIN_KP DRIVE_LENGTH DRIVE_WIDTH
        FL FR BL BR FWD STRAFE Turn).BLModule.driveMotor ∈ Set.Icc (-1 : ℝ) 1 ∧
    (DriveSwervePercent Real.sqrt atan2 M_PI WHEEL_SPIN_KP DRIVE_LENGTH DRIVE_WIDTH
        FL FR BL BR FWD STRAFE Turn).BRModule.driveMotor ∈ Set.Icc (-1 : ℝ) 1 := by
  by_cases hcmd : FWD = 0 ∧ STRAFE = 0 ∧ Turn = 0
  · have hcalls : DriveSwervePercentCalls Real.sqrt atan2 M_PI DRIVE_LENGTH DRIVE_WIDTH
        FWD STRAFE Turn =
        DriveCalls.mk ModuleCall.StopSwerveModule ModuleCall.StopSwerveModule
          ModuleCall.StopSwerveModule ModuleCall.StopSwerveModule := by
      unfold DriveSwervePercentCalls
      exact if_pos hcmd
    simp only [DriveSwervePercent, hcalls, ModuleCall.outputs, StopSwerveModule]
    norm_num
  · have hrange := scaleDriveSpeeds_speed_range
      (rawWheelTargets Real.sqrt atan2 M_PI DRIVE_LENGTH DRIVE_WIDTH FWD STRAFE Turn)
      (rawWheelTargets_speed_nonneg atan2 M_PI DRIVE_LENGTH DRIVE_WIDTH FWD STRAFE Turn)
    have hcalls : DriveSwervePercentCalls Real.sqrt atan2 M_PI DRIVE_LENGTH DRIVE_WIDTH
        FWD STRAFE Turn =
        DriveCalls.mk
          (ModuleCall.DriveSwerveModulePercent
            ((scaleDriveSpeeds (rawWheelTargets Real.sqrt atan2 M_PI DRIVE_LENGTH DRIVE_WIDTH
              FWD STRAFE Turn)).speed 0)
            (scaleDriveSpeeds (rawWheelTargets Real.sqrt atan2 M_PI DRIVE_LENGTH DRIVE_WIDTH
              FWD STRAFE Turn)).FL_Target_Angle)
          (ModuleCall.DriveSwerveModulePercent
            ((scaleDriveSpeeds (rawWheelTargets Real.sqrt atan2 M_PI DRIVE_LENGTH DRIVE_WIDTH
              FWD STRAFE Turn)).speed 1)
            (scaleDriveSpeeds (rawWheelTargets Real.sqrt atan2 M_PI DRIVE_LENGTH DRIVE_WIDTH
              FWD STRAFE Turn)).FR_Target_Angle)
          (ModuleCall.DriveSwerveModulePercent
            ((scaleDriveSpeeds (rawWheelTargets Real.sqrt atan2 M_PI DRIVE_LENGTH DRIVE_WIDTH
              FWD STRAFE Turn)).speed 2)
            (scaleDriveSpeeds (rawWheelTargets Real.sqrt atan2 M_PI DRIVE_LENGTH DRIVE_WIDTH
              FWD STRAFE Turn)).BL_Target_Angle)
          (ModuleCall.DriveSwerveModulePercent
            ((scaleDriveSpeeds (rawWheelTargets Real.sqrt atan2 M_PI DRIVE_LENGTH DRIVE_WIDTH
              FWD STRAFE Turn)).speed 3)
            (scaleDriveSpeeds (rawWheelTargets Real.sqrt atan2 M_PI DRIVE_LENGTH DRIVE_WIDTH
              FWD STRAFE Turn)).BR_Target_Angle) := by
      unfold DriveSwervePercentCalls
      rw [if_neg hcmd]
      rfl
    simp only [DriveSwervePercent, hcalls]
    exact ⟨module_drive_output_range M_PI WHEEL_SPIN_KP FL _ _ (hrange 0),
      module_drive_output_range M_PI WHEEL_SPIN_KP FR _ _ (hrange 1),
      module_drive_output_range M_PI WHEEL_SPIN_KP BL _ _ (hrange 2),
      module_drive_output_range M_PI WHEEL_SPIN_KP BR _ _ (hrange 3)⟩

/-- Witness for C17: half-length and half-width 1, command (2, 0, 0), every module with its
absolute encoder at 3/4 of a turn and offset 0. -/
theorem drive_outputs_within_unit_witness :
    ¬ ((1 : ℝ) = 0 ∧ (1 : ℝ) = 0) ∧
    (DriveSwervePercent Real.sqrt (fun y x => Complex.arg ⟨x, y⟩) Real.pi (1 / 2) 1 1
        (ModuleSensor.mk (3 / 4) 0) (ModuleSensor.mk (3 / 4) 0) (ModuleSensor.mk (3 / 4) 0)
        (ModuleSensor.mk (3 / 4) 0) 2 0 0).FLModule.driveMotor ∈ Set.Icc (-1 : ℝ) 1 :=
  ⟨by norm_num,
    (drive_outputs_within_unit (fun y x => Complex.arg ⟨x, y⟩) Real.pi (1 / 2) 1 1
      (ModuleSensor.mk (3 / 4) 0) (ModuleSensor.mk (3 / 4) 0) (ModuleSensor.mk (3 / 4) 0)
      (ModuleSensor.mk (3 / 4) 0) 2 0 0 (by norm_num)).1⟩

/-- For a pure rotation `r` and a non-degenerate geometry the raw targets carry the speed `|r|`
on all four wheels. -/
lemma rawWheelTargets_pure_rotation (atan2 : ℝ → ℝ → ℝ) (M_PI DRIVE_LENGTH DRIVE_WIDTH r : ℝ)
    (hgeo : ¬ (DRIVE_LENGTH = 0 ∧ DRIVE_WIDTH = 0)) :
    rawWheelTargets Real.sqrt atan2 M_PI DRIVE_LENGTH DRIVE_WIDTH 0 0 r =
      WheelTargets.mk
        (rawWheelTargets Real.sqrt atan2 M_PI DRIVE_LENGTH DRIVE_WIDTH 0 0 r).FR_Target_Angle
        (rawWheelTargets Real.sqrt atan2 M_PI DRIVE_LENGTH DRIVE_WIDTH 0 0 r).FL_Target_Angle
        (rawWheelTargets Real.sqrt atan2 M_PI DRIVE_LENGTH DRIVE_WIDTH 0 0 r).BL_Target_Angle
        (rawWheelTargets Real.sqrt atan2 M_PI DRIVE_LENGTH DRIVE_WIDTH 0 0 r).BR_Target_Angle
        |r| |r| |r| |r| := by
  have hsum : 0 < DRIVE_LENGTH ^ 2 + DRIVE_WIDTH ^ 2 := by
    by_contra hcon
    have hz : DRIVE_LENGTH ^ 2 + DRIVE_WIDTH ^ 2 = 0 :=
      le_antisymm (not_lt.mp hcon) (by positivity)
    have hl : DRIVE_LENGTH = 0 := by nlinarith [sq_nonneg DRIVE_LENGTH, sq_nonneg DRIVE_WIDTH]
    have hw : DRIVE_WIDTH = 0 := by nlinarith [sq_nonneg DRIVE_LENGTH, sq_nonneg DRIVE_WIDTH]
    exact hgeo ⟨hl, hw⟩
  have hR2 : Real.sqrt (DRIVE_LENGTH ^ 2 + DRIVE_WIDTH ^ 2) ^ 2 =
      DRIVE_LENGTH ^ 2 + DRIVE_WIDTH ^ 2 := Real.sq_sqrt hsum.le
  have hkey : (r * (DRIVE_LENGTH / Real.sqrt (DRIVE_LENGTH ^ 2 + DRIVE_WIDTH ^ 2))) ^ 2 +
      (r * (DRIVE_WIDTH / Real.sqrt (DRIVE_LENGTH ^ 2 + DRIVE_WIDTH ^ 2))) ^ 2 = r ^ 2 := by
    rw [mul_pow, mul_pow, div_pow, div_pow, hR2, ← mul_add, ← add_div,
      div_self (ne_of_gt hsum), mul_one]
  have hpp : Real.sqrt ((0 + r * (DRIVE_LENGTH / Real.sqrt (DRIVE_LENGTH ^ 2 + DRIVE_WIDTH ^ 2)))
        ^ 2 + (0 + r * (DRIVE_WIDTH / Real.sqrt (DRIVE_LENGTH ^ 2 + DRIVE_WIDTH ^ 2))) ^ 2)
      = |r| := by
    rw [zero_add, zero_add, hkey]
    exact Real.sqrt_sq_eq_abs r
  have hpm : Real.sqrt ((0 + r * (DRIVE_LENGTH / Real.sqrt (DRIVE_LENGTH ^ 2 + DRIVE_WIDTH ^ 2)))
        ^ 2 + (0 - r * (DRIVE_WIDTH / Real.sqrt (DRIVE_LENGTH ^ 2 + DRIVE_WIDTH ^ 2))) ^ 2)
      = |r| := by
    rw [zero_add, zero_sub, neg_sq, hkey]
    exact Real.sqrt_sq_eq_abs r
  have hmp : Real.sqrt ((0 - r * (DRIVE_LENGTH / Real.sqrt (DRIVE_LENGTH ^ 2 + DRIVE_WIDTH ^ 2)))
        ^ 2 + (0 + r * (DRIVE_WIDTH / Real.sqrt (DRIVE_LENGTH ^ 2 + DRIVE_WIDTH ^ 2))) ^ 2)
      = |r| := by
    rw [zero_add, zero_sub, neg_sq, hkey]
    exact Real.sqrt_sq_eq_abs r
  have hmm : Real.sqrt ((0 - r * (DRIVE_LENGTH / Real.sqrt (DRIVE_LENGTH ^ 2 + DRIVE_WIDTH ^ 2)))
        ^ 2 + (0 - r * (DRIVE_WIDTH / Real.sqrt (DRIVE_LENGTH ^ 2 + DRIVE_WIDTH ^ 2))) ^ 2)
      = |r| := by
    rw [zero_sub, zero_sub, neg_sq, neg_sq, hkey]
    exact Real.sqrt_sq_eq_abs r
  simp only [rawWheelTargets, hpp, hpm, hmp, hmm]

/-- C18: for a pure rotation command (0, 0, r) with `r ≠ 0` and a non-degenerate geometry, the
four raw wheel speeds of `DriveSwervePercent` are all `|r|`, and each module is called with the
speed `min |r| 1` (and its raw target angle). -/
theorem pure_rotation_equal_speeds (atan2 : ℝ → ℝ → ℝ) (M_PI DRIVE_LENGTH DRIVE_WIDTH r : ℝ)
    (hgeo : ¬ (DRIVE_LENGTH = 0 ∧ DRIVE_WIDTH = 0)) (hr : r ≠ 0) :
    (∀ i : Fin 4,
      (rawWheelTargets Real.sqrt atan2 M_PI DRIVE_LENGTH DRIVE_WIDTH 0 0 r).speed i = |r|) ∧
    DriveSwervePercentCalls Real.sqrt atan2 M_PI DRIVE_LENGTH DRIVE_WIDTH 0 0 r =
      DriveCalls.mk
        (ModuleCall.DriveSwerveModulePercent (min |r| 1)
          (rawWheelTargets Real.sqrt atan2 M_PI DRIVE_LENGTH DRIVE_WIDTH 0 0 r).FL_Target_Angle)
        (ModuleCall.DriveSwerveModulePercent (min |r| 1)
          (rawWheelTargets Real.sqrt atan2 M_PI DRIVE_LENGTH DRIVE_WIDTH 0 0 r).FR_Target_Angle)
        (ModuleCall.DriveSwerveModulePercent (min |r| 1)
          (rawWheelTargets Real.sqrt atan2 M_PI DRIVE_LENGTH DRIVE_WIDTH 0 0 r).BL_Target_Angle)
        (ModuleCall.DriveSwerveModulePercent (min |r| 1)
          (rawWheelTargets Real.sqrt atan2 M_PI DRIVE_LENGTH DRIVE_WIDTH 0 0 r).BR_Target_Angle)
    := by
  have hraw := rawWheelTargets_pure_rotation atan2 M_PI DRIVE_LENGTH DRIVE_WIDTH r hgeo
  have hcmd : ¬ ((0 : ℝ) = 0 ∧ (0 : ℝ) = 0 ∧ r = 0) := fun h => hr h.2.2
  refine ⟨?_, ?_⟩
  · intro i
    rw [hraw]
    fin_cases i <;> rfl
  · unfold DriveSwervePercentCalls
    rw [if_neg hcmd]
    simp only []
    rw [hraw, scaleDriveSpeeds_equal, min_def]

/-- Witness for C18: half-length 3, half-width 4 and the rotation command -2: every raw speed
is 2 and every module is called with the speed 1. -/
theorem pure_rotation_equal_speeds_witness :
    ¬ ((3 : ℝ) = 0 ∧ (4 : ℝ) = 0) ∧ (-2 : ℝ) ≠ 0 ∧
    (∀ i : Fin 4,
      (rawWheelTargets Real.sqrt (fun y x => Complex.arg ⟨x, y⟩) Real.pi 3 4 0 0 (-2)).speed i
        = |(-2 : ℝ)|) ∧
    min |(-2 : ℝ)| 1 = 1 :=
  ⟨by norm_num, by norm_num,
    (pure_rotation_equal_speeds (fun y x => Complex.arg ⟨x, y⟩) Real.pi 3 4 (-2)
      (by norm_num) (by norm_num)).1,
    by norm_num⟩

/-- C19: the angles the code reports.  `GetSwerveModulePosition` reports the steer heading
that `GetMagEncoderReading` returns, and `GetSwerveModuleState` reports that heading divided by
180 and multiplied by `M_PI`.  With the absolute encoder at 3/4 of a turn and offset 0 the
position reports `π / 2` and the state reports `π ^ 2 / 360`; the two differ by more than 0 and
less than a full turn. -/
theorem state_angle_is_rescaled_heading :
    (∀ (M_PI DRIVE_MOTOR_GEAR_RATIO DRIVE_MOTOR_CIRCUMFERENCE : α) (m : SwerveModule α)
        (r : ModuleReadings α),
      (GetSwerveModulePosition M_PI DRIVE_MOTOR_GEAR_RATIO DRIVE_MOTOR_CIRCUMFERENCE m r).angle =
          GetMagEncoderReading M_PI r.absolutePosition m.encoderOffset ∧
        (GetSwerveModuleState M_PI m r).angle =
          GetMagEncoderReading M_PI r.absolutePosition m.encoderOffset / 180 * M_PI) ∧
    (GetSwerveModulePosition Real.pi 1 1 (SwerveModule.mk 0 0 0 0)
        (ModuleReadings.mk 0 0 0 (3 / 4))).angle = Real.pi / 2 ∧
    (GetSwerveModuleState Real.pi (SwerveModule.mk 0 0 0 0)
        (ModuleReadings.mk 0 0 0 (3 / 4))).angle = Real.pi ^ 2 / 360 ∧
    0 < Real.pi / 2 - Real.pi ^ 2 / 360 ∧ Real.pi / 2 - Real.pi ^ 2 / 360 < 2 * Real.pi := by
  have hmag : GetMagEncoderReading Real.pi (3 / 4) 0 = Real.pi / 2 := by
    have h : ¬ ((3 : ℝ) / 4 - 0 < 0) := by norm_num
    simp only [GetMagEncoderReading, if_neg h]
    ring
  refine ⟨fun M_PI G C m r => ⟨rfl, rfl⟩, ?_, ?_, ?_, ?_⟩
  · simp only [GetSwerveModulePosition, hmag]
  · simp only [GetSwerveModuleState, hmag]
    ring
  · nlinarith [Real.pi_pos, Real.pi_le_four]
  · nlinarith [Real.pi_pos, Real.pi_le_four]

end Swerve
